import Mathlib

/-!
Shallow embedding of the knative eventing-rabbitmq reconciliation engine
(packages pkg/reconciler/trigger, pkg/reconciler/broker and
pkg/reconciler/brokerstandalone), together with proofs about the
reconciliation pipelines.  Go values are modelled as plain Lean data:
Kubernetes objects become structures, informer lookups become an explicit
`Lookup` value, API writes are recorded in a `WriteOp` trace, and the
`pkgreconciler.Event` return value becomes `Option String` (none = nil).
-/

set_option linter.unusedVariables false
set_option linter.unusedTactic false

/-- Tri-state condition status, mirroring corev1.ConditionStatus
(True / False / Unknown). -/
inductive CStatus where
  | isTrue
  | isFalse
  | unknown
deriving DecidableEq, Repr

/-- A named condition with a reason, as stored in Broker/Trigger status
condition slots. -/
structure CondVal where
  status : CStatus
  reason : String
deriving DecidableEq, Repr

/-- A rabbitmq.com/v1beta1 Condition as read by isReady: only the status
field is inspected by the code, the type tags the slot. -/
structure RCondition where
  ctype : String
  status : CStatus
deriving DecidableEq, Repr

/-- isReady from pkg/reconciler/trigger/trigger.go and
pkg/reconciler/broker (identical bodies): counts down the number of
conditions for every condition with status True and reports readiness when
the counter reaches zero; an empty list is not ready. -/
def isReady (conditions : List RCondition) : Bool :=
  if conditions.length == 0 then
    false
  else
    (conditions.foldl
      (fun n c => if c.status == CStatus.isTrue then n - 1 else n)
      conditions.length) == 0

theorem isReady_foldl (p : RCondition → Bool) :
    ∀ (cs : List RCondition) (n : Nat), cs.countP p ≤ n →
      cs.foldl (fun a c => if p c then a - 1 else a) n = n - cs.countP p := by
  intro cs
  induction cs with
  | nil => intro n _; simp
  | cons c cs ih =>
    intro n hn
    simp only [List.foldl_cons]
    by_cases hc : p c
    · have hcount : (c :: cs).countP p = cs.countP p + 1 := by
        simp [List.countP_cons, hc]
      rw [hcount] at hn
      have h1 : cs.countP p ≤ n - 1 := by omega
      rw [if_pos hc, ih (n - 1) h1, hcount]
      omega
    · have hcount : (c :: cs).countP p = cs.countP p := by
        simp [List.countP_cons, hc]
      rw [hcount] at hn
      rw [if_neg hc, ih n hn, hcount]

theorem isReady_eq_true_iff (cs : List RCondition) :
    isReady cs = true ↔ cs ≠ [] ∧ ∀ c ∈ cs, c.status = CStatus.isTrue := by
  have hle : cs.countP (fun c => c.status == CStatus.isTrue) ≤ cs.length :=
    List.countP_le_length _
  unfold isReady
  rw [isReady_foldl (fun c => c.status == CStatus.isTrue) cs cs.length hle]
  by_cases hnil : cs = []
  · subst hnil; simp
  · have hlen0 : cs.length ≠ 0 := by
      simpa [List.length_eq_zero] using hnil
    have hbeq : (cs.length == 0) = false := by
      simpa using hlen0
    rw [hbeq]
    simp only [Bool.false_eq_true, if_false, beq_iff_eq]
    constructor
    · intro h
      have hlen : cs.countP (fun c => c.status == CStatus.isTrue) = cs.length := by
        omega
      refine ⟨hnil, ?_⟩
      intro c hc
      have := (List.countP_eq_length.mp hlen) c hc
      simpa using this
    · rintro ⟨-, hall⟩
      have hlen : cs.countP (fun c => c.status == CStatus.isTrue) = cs.length := by
        apply List.countP_eq_length.mpr
        intro c hc
        simp [hall c hc]
      omega

/-! ### String-keyed maps

Go map values (binding arguments, queue arguments, secret string data,
annotations) are modelled as association lists with insert-overwrite
semantics; json.Marshal of a Go map sorts its keys, so the canonical
(sorted) form of a built map stands in for the marshalled bytes. -/

/-- Lookup in an association list (Go map read, first matching key). -/
def lookupArg : List (String × String) → String → Option String
  | [], _ => none
  | (k, v) :: rest, key => if k == key then some v else lookupArg rest key

/-- Go map read with the zero-value default, as in
broker.Annotations[eventing.BrokerClassKey]. -/
def lookupArgD (m : List (String × String)) (key : String) : String :=
  (lookupArg m key).getD ""

/-- Go map insert: overwrite the entry for the key if present, otherwise
append it. -/
def mapInsert : List (String × String) → String → String → List (String × String)
  | [], k, v => [(k, v)]
  | (k', v') :: rest, k, v =>
    if k' == k then (k, v) :: rest else (k', v') :: mapInsert rest k v

/-- Keys of an association list. -/
def mapKeys (m : List (String × String)) : List String := m.map Prod.fst

theorem lookupArg_mapInsert_self (m : List (String × String)) (k v : String) :
    lookupArg (mapInsert m k v) k = some v := by
  induction m with
  | nil => simp [mapInsert, lookupArg]
  | cons p rest ih =>
    obtain ⟨k', v'⟩ := p
    by_cases h : k' = k
    · simp [mapInsert, lookupArg, h]
    · simp only [mapInsert, beq_iff_eq, h, if_false]
      simp only [lookupArg, beq_iff_eq, h, if_false]
      exact ih

theorem lookupArg_mapInsert_ne (m : List (String × String)) (k v key : String)
    (h : key ≠ k) : lookupArg (mapInsert m k v) key = lookupArg m key := by
  have hk : k ≠ key := Ne.symm h
  induction m with
  | nil => simp [mapInsert, lookupArg, hk]
  | cons p rest ih =>
    obtain ⟨k', v'⟩ := p
    by_cases hkk : k' = k
    · subst hkk
      simp [mapInsert, lookupArg, hk]
    · simp only [mapInsert, beq_iff_eq, hkk, if_false]
      simp only [lookupArg]
      by_cases hkey : k' = key
      · simp [hkey]
      · simp only [beq_iff_eq, hkey, if_false]
        exact ih

/-- Folding Go-map inserts over an attribute list: any key not appearing in
the attribute list keeps its prior value. -/
theorem lookupArg_foldl_not_mem (attrs : List (String × String))
    (base : List (String × String)) (key : String)
    (h : key ∉ mapKeys attrs) :
    lookupArg (attrs.foldl (fun m kv => mapInsert m kv.1 kv.2) base) key =
      lookupArg base key := by
  induction attrs generalizing base with
  | nil => simp
  | cons p rest ih =>
    obtain ⟨k, v⟩ := p
    simp only [mapKeys, List.map_cons, List.mem_cons] at h
    push_neg at h
    simp only [List.foldl_cons]
    rw [ih _ (by simpa [mapKeys] using h.2)]
    exact lookupArg_mapInsert_ne base k v key h.1

/-- Folding Go-map inserts over an attribute list whose keys are distinct:
an entry of the attribute list ends up in the map verbatim, overwriting
whatever the base map held for that key. -/
theorem lookupArg_foldl_mem (attrs : List (String × String))
    (base : List (String × String)) (k v : String)
    (hnd : (mapKeys attrs).Nodup) (hmem : (k, v) ∈ attrs) :
    lookupArg (attrs.foldl (fun m kv => mapInsert m kv.1 kv.2) base) k =
      some v := by
  induction attrs generalizing base with
  | nil => simp at hmem
  | cons p rest ih =>
    obtain ⟨k', v'⟩ := p
    simp only [mapKeys, List.map_cons, List.nodup_cons] at hnd
    simp only [List.foldl_cons]
    rcases List.mem_cons.mp hmem with heq | hrest
    · injection heq with h1 h2
      subst h1
      subst h2
      rw [lookupArg_foldl_not_mem rest _ k (by simpa [mapKeys] using hnd.1)]
      exact lookupArg_mapInsert_self base k v
    · exact ih _ hnd.2 hrest

/-- Decidable equality for Except, needed to evaluate pipeline outcomes on
concrete inputs. -/
instance {ε α : Type} [DecidableEq ε] [DecidableEq α] : DecidableEq (Except ε α) :=
  fun a b =>
  match a, b with
  | .error x, .error y =>
    if h : x = y then isTrue (congrArg Except.error h)
    else isFalse (fun hh => by cases hh; exact h rfl)
  | .error _, .ok _ => isFalse (fun hh => Except.noConfusion hh)
  | .ok _, .error _ => isFalse (fun hh => Except.noConfusion hh)
  | .ok x, .ok y =>
    if h : x = y then isTrue (congrArg Except.ok h)
    else isFalse (fun hh => by cases hh; exact h rfl)

/-! ### Canonical (sorted) form of a Go map

json.Marshal of a Go map sorts the keys, so the marshalled bytes stored in
a RawExtension are represented by the key-sorted association list. -/

/-- Byte-wise lexicographic comparison on the character lists of two
strings (kernel-reducible, unlike the builtin String order). -/
def charListLe : List Char → List Char → Bool
  | [], _ => true
  | _ :: _, [] => false
  | a :: as, b :: bs =>
    if a.val < b.val then true
    else if b.val < a.val then false
    else charListLe as bs

def keyLe (a b : String) : Bool := charListLe a.toList b.toList

def insertByKey (x : String × String) : List (String × String) → List (String × String)
  | [] => [x]
  | y :: ys => if keyLe x.1 y.1 then x :: y :: ys else y :: insertByKey x ys

/-- Canonical key-sorted form of an association list, standing in for the
bytes produced by json.Marshal of the corresponding Go map. -/
def canonArgs (m : List (String × String)) : List (String × String) :=
  m.foldr insertByKey []

/-! ### Data model -/

/-- Broker.Spec.Config: a duckv1.KReference; only Kind and Name are read by
the reconcilers. -/
structure ConfigRef where
  kind : String
  name : String
deriving DecidableEq, Repr

/-- DeliverySpec: the engine only inspects whether a DeadLetterSink
destination is present; the destination reference itself is opaque and
modelled as a string consumed by the resolver. -/
structure Delivery where
  deadLetterSink : Option String
deriving DecidableEq, Repr

structure BrokerSpec where
  config : Option ConfigRef
  delivery : Option Delivery
deriving DecidableEq, Repr

/-- Broker as read by the reconcilers: identity, annotations, spec, and the
status fields other components read (top-level condition, ingress address). -/
structure Broker where
  name : String
  ns : String
  uid : String
  annots : List (String × String)
  spec : BrokerSpec
  topLevel : CondVal
  address : Option String
deriving DecidableEq, Repr

/-- Broker.IsReady: the top-level condition has status True. -/
def brokerIsReady (b : Broker) : Bool := b.topLevel.status == CStatus.isTrue

structure TriggerFilter where
  attributes : Option (List (String × String))
deriving DecidableEq, Repr

structure TriggerSpec where
  broker : String
  filter : Option TriggerFilter
  delivery : Option Delivery
  subscriber : String
deriving DecidableEq, Repr

/-- TriggerStatus condition slots (the eventing Trigger condition set) plus
the status fields the pipeline writes. A slot holds none until it is
initialized or marked. -/
structure TriggerStatus where
  brokerCond : Option CondVal
  dependencyCond : Option CondVal
  subscribedCond : Option CondVal
  subscriberResolvedCond : Option CondVal
  deadLetterSinkCond : Option CondVal
  observedGeneration : Option Int
  subscriberURI : Option String
  deadLetterSinkURI : Option String
deriving DecidableEq, Repr

structure Trigger where
  name : String
  ns : String
  uid : String
  generation : Int
  annots : List (String × String)
  spec : TriggerSpec
  status : TriggerStatus
deriving DecidableEq, Repr

/-- Modelled from the spec: deterministic naming (pkg/rabbitmqnaming is not
under src). Each name derives from namespace + owner name + owner uid + a
role suffix; the exact formats follow the expectations recorded in the
resources test file shipped under src/unnamed. -/
def createTriggerQueueName (t : Trigger) : String :=
  "t." ++ t.ns ++ "." ++ t.name ++ "." ++ t.uid

def createTriggerDeadLetterQueueName (t : Trigger) : String :=
  "t." ++ t.ns ++ "." ++ t.name ++ ".dlq." ++ t.uid

def createBrokerDeadLetterQueueName (b : Broker) : String :=
  "b." ++ b.ns ++ "." ++ b.name ++ ".dlq." ++ b.uid

def brokerExchangeName (b : Broker) (dlx : Bool) : String :=
  "b." ++ b.ns ++ "." ++ b.name ++ (if dlx then ".dlx." else ".") ++ b.uid

def triggerDLXExchangeName (t : Trigger) : String :=
  "t." ++ t.ns ++ "." ++ t.name ++ ".dlx." ++ t.uid

/-- Modelled from the spec: deterministic compute-object names (the
resources packages for ingress/dispatcher are not under src). -/
def brokerDispatcherName (brokerName : String) : String :=
  brokerName ++ "-dlx-dispatcher"

def triggerDispatcherName (t : Trigger) : String := t.name ++ "-dispatcher"

def triggerDLXDispatcherName (t : Trigger) : String := t.name ++ "-dlx-dispatcher"

def rabbitSecretName (brokerName : String) : String := brokerName ++ "-broker-rabbit"

def ingressDeploymentName (b : Broker) : String := b.name ++ "-broker-ingress"

def ingressServiceName (b : Broker) : String := b.name ++ "-broker-ingress"

/-- Broker.Spec.Config.Name with the Go zero value when absent. -/
def configName (b : Broker) : String :=
  match b.spec.config with
  | some c => c.name
  | none => ""

/-- isUsingOperator from trigger.go / broker.go / brokerstandalone
broker.go: the backing config kind equals "RabbitmqCluster". -/
def isUsingOperator (b : Option Broker) : Bool :=
  match b with
  | some b =>
    match b.spec.config with
    | some c => c.kind == "RabbitmqCluster"
    | none => false
  | none => false

/-! ### Topology and compute objects -/

structure ExchangeSpec where
  name : String
  etype : String
  durable : Bool
  autoDelete : Bool
  clusterRef : String
deriving DecidableEq, Repr

structure Exchange where
  name : String
  ns : String
  spec : ExchangeSpec
  conditions : List RCondition
deriving DecidableEq, Repr

structure QueueSpec where
  name : String
  durable : Bool
  autoDelete : Bool
  clusterRef : String
  args : Option (List (String × String))
deriving DecidableEq, Repr

structure Queue where
  name : String
  ns : String
  spec : QueueSpec
  conditions : List RCondition
deriving DecidableEq, Repr

structure BindingSpec where
  vhost : String
  source : String
  destination : String
  destinationType : String
  routingKey : String
  args : Option (List (String × String))
  clusterRef : String
deriving DecidableEq, Repr

structure Binding where
  name : String
  ns : String
  spec : BindingSpec
  conditions : List RCondition
deriving DecidableEq, Repr

structure PodTemplate where
  image : String
  envPairs : List (String × String)
deriving DecidableEq, Repr

structure DeploymentSpec where
  template : PodTemplate
deriving DecidableEq, Repr

structure Deployment where
  name : String
  ns : String
  spec : DeploymentSpec
deriving DecidableEq, Repr

structure Secret where
  name : String
  ns : String
  stringData : List (String × String)
deriving DecidableEq, Repr

structure ServiceSpec where
  clusterIP : String
  selector : List (String × String)
deriving DecidableEq, Repr

structure Service where
  name : String
  ns : String
  spec : ServiceSpec
deriving DecidableEq, Repr

structure Endpoints where
  name : String
  ns : String
  hasReadyAddresses : Bool
deriving DecidableEq, Repr

/-! ### Desired-state builders -/

/-- ExchangeArgs from pkg/reconciler/broker/resources/exchange.go. -/
structure ExchangeArgs where
  broker : Broker
  trigger : Option Trigger
  dlx : Bool
deriving DecidableEq, Repr

/-- NewExchange from pkg/reconciler/broker/resources/exchange.go: a
Trigger-owned DLX exchange when a Trigger is set, otherwise a Broker
exchange (primary or DLX per args.dlx); type headers, durable, not
auto-deleted, cluster reference from the Broker config. -/
def newExchange (args : ExchangeArgs) : Exchange :=
  match args.trigger with
  | some t =>
    { name := triggerDLXExchangeName t
      ns := t.ns
      spec :=
        { name := triggerDLXExchangeName t
          etype := "headers"
          durable := true
          autoDelete := false
          clusterRef := configName args.broker }
      conditions := [] }
  | none =>
    { name := brokerExchangeName args.broker args.dlx
      ns := args.broker.ns
      spec :=
        { name := brokerExchangeName args.broker args.dlx
          etype := "headers"
          durable := true
          autoDelete := false
          clusterRef := configName args.broker }
      conditions := [] }

/-- Modelled from the spec: NewQueue
(pkg/reconciler/trigger/resources/queue.go is not under src). Durable, not
auto-deleted, cluster reference from the Broker config; a Trigger-owned
queue carries an x-dead-letter-exchange argument pointing at the Trigger
DLX when the Trigger has its own dead-letter sink, else at the Broker DLX;
the shapes are pinned by the resources test file under src/unnamed. -/
def newQueue (b : Broker) (t : Option Trigger) : Queue :=
  match t with
  | none =>
    { name := createBrokerDeadLetterQueueName b
      ns := b.ns
      spec :=
        { name := createBrokerDeadLetterQueueName b
          durable := true
          autoDelete := false
          clusterRef := configName b
          args := none }
      conditions := [] }
  | some t =>
    let dlxName :=
      match t.spec.delivery with
      | some d =>
        match d.deadLetterSink with
        | some _ => triggerDLXExchangeName t
        | none => brokerExchangeName b true
      | none => brokerExchangeName b true
    { name := createTriggerQueueName t
      ns := b.ns
      spec :=
        { name := createTriggerQueueName t
          durable := true
          autoDelete := false
          clusterRef := configName b
          args := some [("x-dead-letter-exchange", dlxName)] }
      conditions := [] }

/-- Modelled from the spec: NewTriggerDLQ
(pkg/reconciler/trigger/resources/queue.go is not under src); a durable
Trigger-owned dead-letter queue with no arguments, pinned by the resources
test file under src/unnamed. -/
def newTriggerDLQ (b : Broker) (t : Trigger) : Queue :=
  { name := createTriggerDeadLetterQueueName t
    ns := b.ns
    spec :=
      { name := createTriggerDeadLetterQueueName t
        durable := true
        autoDelete := false
        clusterRef := configName b
        args := none }
    conditions := [] }

def bindingKey : String := "x-knative-trigger"

def dlqBindingKey : String := "x-knative-dlq"

def triggerDLQBindingKey : String := "x-knative-trigger-dlq"

/-- Binding argument map built by NewBinding
(pkg/reconciler/trigger/resources/binding.go): the x-match key is set
first, then the owner-identification key, then the user filter attributes
are merged in verbatim. -/
def bindingArguments (broker : Broker) (trigger : Option Trigger) :
    List (String × String) :=
  let args := mapInsert [] "x-match" "all"
  match trigger with
  | some t =>
    let args := mapInsert args bindingKey t.name
    match t.spec.filter with
    | some f =>
      match f.attributes with
      | some attrs => attrs.foldl (fun m kv => mapInsert m kv.1 kv.2) args
      | none => args
    | none => args
  | none => mapInsert args dlqBindingKey broker.name

/-- NewBinding from pkg/reconciler/trigger/resources/binding.go: Trigger
primary binding (Broker primary exchange to the Trigger queue) when a
Trigger is set, else the Broker dead-letter binding (Broker DLX to the
Broker DLQ); the argument map is stored in its canonical marshalled form. -/
def newBinding (broker : Broker) (trigger : Option Trigger) : Binding :=
  match trigger with
  | some t =>
    { name := createTriggerQueueName t
      ns := broker.ns
      spec :=
        { vhost := "/"
          source := brokerExchangeName broker false
          destination := createTriggerQueueName t
          destinationType := "queue"
          routingKey := ""
          args := some (canonArgs (bindingArguments broker (some t)))
          clusterRef := configName broker }
      conditions := [] }
  | none =>
    { name := createBrokerDeadLetterQueueName broker
      ns := broker.ns
      spec :=
        { vhost := "/"
          source := brokerExchangeName broker true
          destination := createBrokerDeadLetterQueueName broker
          destinationType := "queue"
          routingKey := ""
          args := some (canonArgs (bindingArguments broker none))
          clusterRef := configName broker }
      conditions := [] }

/-- NewTriggerDLQBinding from
pkg/reconciler/trigger/resources/binding.go: Trigger DLX to Trigger DLQ
with the reserved x-match and trigger-dlq keys only. -/
def newTriggerDLQBinding (broker : Broker) (t : Trigger) : Binding :=
  { name := createTriggerDeadLetterQueueName t
    ns := t.ns
    spec :=
      { vhost := "/"
        source := triggerDLXExchangeName t
        destination := createTriggerDeadLetterQueueName t
        destinationType := "queue"
        routingKey := ""
        args := some (canonArgs
          (mapInsert (mapInsert [] "x-match" "all") triggerDLQBindingKey t.name))
        clusterRef := configName broker }
    conditions := [] }

/-- Modelled from the spec: MakeDispatcherDeployment
(pkg/reconciler/broker/resources is not under src); a deterministic
deployment whose pod template is a pure function of the dispatcher
arguments. -/
structure DispatcherArgs where
  dname : String
  ns : String
  image : String
  rabbitMQSecretName : String
  queueName : String
  brokerIngressURL : Option String
  subscriber : Option String
  dlx : Bool
deriving DecidableEq, Repr

def makeDispatcherDeployment (args : DispatcherArgs) : Deployment :=
  { name := args.dname
    ns := args.ns
    spec :=
      { template :=
          { image := args.image
            envPairs :=
              [("RABBIT_MQ_SECRET_NAME", args.rabbitMQSecretName),
               ("QUEUE_NAME", args.queueName),
               ("BROKER_INGRESS_URL", (args.brokerIngressURL).getD ""),
               ("SUBSCRIBER", (args.subscriber).getD ""),
               ("DLX", if args.dlx then "true" else "false")] } } }

/-! ### Partial-match comparison

Model of equality.Semantic.DeepDerivative at the spec types the upsert
functions compare: a zero value (empty string, false, nil) on the desired
side is treated as unset and matches anything; a set field must equal the
observed value. RawExtension argument bytes compare by equality of the
canonical map. -/

def matchStr (want obs : String) : Bool := want == "" || want == obs

def matchBool (want obs : Bool) : Bool := !want || want == obs

def matchOptArgs (want obs : Option (List (String × String))) : Bool :=
  match want with
  | none => true
  | some w => obs == some w

/-- DeepDerivative on a map[string]string: every desired entry must be
present in the observed map with an equal value. -/
def derivMap (want obs : List (String × String)) : Bool :=
  want.all (fun kv => lookupArg obs kv.1 == some kv.2)

def derivExchangeSpec (want obs : ExchangeSpec) : Bool :=
  matchStr want.name obs.name &&
  matchStr want.etype obs.etype &&
  matchBool want.durable obs.durable &&
  matchBool want.autoDelete obs.autoDelete &&
  matchStr want.clusterRef obs.clusterRef

def derivQueueSpec (want obs : QueueSpec) : Bool :=
  matchStr want.name obs.name &&
  matchBool want.durable obs.durable &&
  matchBool want.autoDelete obs.autoDelete &&
  matchStr want.clusterRef obs.clusterRef &&
  matchOptArgs want.args obs.args

def derivBindingSpec (want obs : BindingSpec) : Bool :=
  matchStr want.vhost obs.vhost &&
  matchStr want.source obs.source &&
  matchStr want.destination obs.destination &&
  matchStr want.destinationType obs.destinationType &&
  matchStr want.routingKey obs.routingKey &&
  matchOptArgs want.args obs.args &&
  matchStr want.clusterRef obs.clusterRef

def derivTemplate (want obs : PodTemplate) : Bool :=
  matchStr want.image obs.image &&
  (want.envPairs == [] || want.envPairs == obs.envPairs)

def derivServiceSpec (want obs : ServiceSpec) : Bool :=
  matchStr want.clusterIP obs.clusterIP &&
  derivMap want.selector obs.selector

/-! ### Store access model -/

/-- Result of an informer lister Get: found, not-found, or another store
error. -/
inductive Lookup (α : Type) where
  | notFound
  | failed (e : String)
  | found (a : α)
deriving DecidableEq, Repr

/-- One managed object kind as the pipeline sees it: the observed lookup
result, and an error injected into any create/update call against the API
server (none = the write succeeds and returns the written object). -/
structure StoreView (α : Type) where
  current : Lookup α
  writeErr : Option String
deriving DecidableEq, Repr

/-- An API write issued by the pipeline. -/
inductive WriteOp where
  | createOp (kind oname : String)
  | updateOp (kind oname : String)
  | deleteOp (kind oname : String)
deriving DecidableEq, Repr

def WriteOp.isDelete : WriteOp → Bool
  | .deleteOp _ _ => true
  | _ => false

/-! ### Upsert primitives (one per Go reconcile function) -/

/-- reconcileExchange from pkg/reconciler/trigger/trigger.go: create when
absent, update when the desired spec does not partial-match the observed
spec, otherwise return the observed exchange with no write. -/
def triggerReconcileExchange (store : StoreView Exchange) (b : Broker)
    (t : Trigger) : Except String Exchange × List WriteOp :=
  let want := newExchange { broker := b, trigger := some t, dlx := true }
  match store.current with
  | .notFound =>
    match store.writeErr with
    | some e => (.error e, [.createOp "exchange" want.name])
    | none => (.ok want, [.createOp "exchange" want.name])
  | .failed e => (.error e, [])
  | .found current =>
    if derivExchangeSpec want.spec current.spec then
      (.ok current, [])
    else
      match store.writeErr with
      | some e => (.error e, [.updateOp "exchange" current.name])
      | none =>
        (.ok { current with spec := want.spec },
         [.updateOp "exchange" current.name])

/-- reconcileQueue from pkg/reconciler/trigger/trigger.go. -/
def triggerReconcileQueue (store : StoreView Queue) (b : Broker)
    (t : Trigger) : Except String Queue × List WriteOp :=
  let want := newQueue b (some t)
  match store.current with
  | .notFound =>
    match store.writeErr with
    | some e => (.error e, [.createOp "queue" want.name])
    | none => (.ok want, [.createOp "queue" want.name])
  | .failed e => (.error e, [])
  | .found current =>
    if derivQueueSpec want.spec current.spec then
      (.ok current, [])
    else
      match store.writeErr with
      | some e => (.error e, [.updateOp "queue" current.name])
      | none =>
        (.ok { current with spec := want.spec },
         [.updateOp "queue" current.name])

/-- reconcileDLQ from pkg/reconciler/trigger/trigger.go. -/
def triggerReconcileDLQ (store : StoreView Queue) (b : Broker)
    (t : Trigger) : Except String Queue × List WriteOp :=
  let want := newTriggerDLQ b t
  match store.current with
  | .notFound =>
    match store.writeErr with
    | some e => (.error e, [.createOp "queue" want.name])
    | none => (.ok want, [.createOp "queue" want.name])
  | .failed e => (.error e, [])
  | .found current =>
    if derivQueueSpec want.spec current.spec then
      (.ok current, [])
    else
      match store.writeErr with
      | some e => (.error e, [.updateOp "queue" current.name])
      | none =>
        (.ok { current with spec := want.spec },
         [.updateOp "queue" current.name])

/-- Error text of the immutable-binding conflict in
pkg/reconciler/trigger/trigger.go (the source message reads: binding spec
differs and it is immutable). -/
def bindingImmutableErr : String := "binding spec differs and is immutable"

/-- reconcileBinding from pkg/reconciler/trigger/trigger.go: create when
absent, but a spec divergence on an existing binding is a terminal error
with no write attempted. -/
def triggerReconcileBinding (store : StoreView Binding) (b : Broker)
    (t : Trigger) : Except String Binding × List WriteOp :=
  let want := newBinding b (some t)
  match store.current with
  | .notFound =>
    match store.writeErr with
    | some e => (.error e, [.createOp "binding" want.name])
    | none => (.ok want, [.createOp "binding" want.name])
  | .failed e => (.error e, [])
  | .found current =>
    if derivBindingSpec want.spec current.spec then
      (.ok current, [])
    else
      (.error bindingImmutableErr, [])

/-- reconcileDLQBinding from pkg/reconciler/trigger/trigger.go: same
immutability policy as the primary Trigger binding. -/
def triggerReconcileDLQBinding (store : StoreView Binding) (b : Broker)
    (t : Trigger) : Except String Binding × List WriteOp :=
  let want := newTriggerDLQBinding b t
  match store.current with
  | .notFound =>
    match store.writeErr with
    | some e => (.error e, [.createOp "binding" want.name])
    | none => (.ok want, [.createOp "binding" want.name])
  | .failed e => (.error e, [])
  | .found current =>
    if derivBindingSpec want.spec current.spec then
      (.ok current, [])
    else
      (.error bindingImmutableErr, [])

/-- reconcileDeployment from pkg/reconciler/trigger/trigger.go: the
comparison is on the pod templates; an update overlays the full desired
spec on a copy of the observed deployment. -/
def triggerReconcileDeployment (store : StoreView Deployment)
    (d : Deployment) : Except String Deployment × List WriteOp :=
  match store.current with
  | .notFound =>
    match store.writeErr with
    | some e => (.error e, [.createOp "deployment" d.name])
    | none => (.ok d, [.createOp "deployment" d.name])
  | .failed e => (.error e, [])
  | .found current =>
    if derivTemplate d.spec.template current.spec.template then
      (.ok current, [])
    else
      match store.writeErr with
      | some e => (.error e, [.updateOp "deployment" current.name])
      | none =>
        (.ok { current with spec := d.spec },
         [.updateOp "deployment" current.name])

/-- reconcileExchange from pkg/reconciler/broker (broker.go): same upsert
shape as the Trigger variant, for Broker-owned exchanges. -/
def brokerReconcileExchange (store : StoreView Exchange)
    (args : ExchangeArgs) : Except String Exchange × List WriteOp :=
  let want := newExchange args
  match store.current with
  | .notFound =>
    match store.writeErr with
    | some e => (.error e, [.createOp "exchange" want.name])
    | none => (.ok want, [.createOp "exchange" want.name])
  | .failed e => (.error e, [])
  | .found current =>
    if derivExchangeSpec want.spec current.spec then
      (.ok current, [])
    else
      match store.writeErr with
      | some e => (.error e, [.updateOp "exchange" current.name])
      | none =>
        (.ok { current with spec := want.spec },
         [.updateOp "exchange" current.name])

/-- reconcileQueue from pkg/reconciler/broker (broker.go): the Broker
dead-letter queue. -/
def brokerReconcileQueue (store : StoreView Queue) (b : Broker) :
    Except String Queue × List WriteOp :=
  let want := newQueue b none
  match store.current with
  | .notFound =>
    match store.writeErr with
    | some e => (.error e, [.createOp "queue" want.name])
    | none => (.ok want, [.createOp "queue" want.name])
  | .failed e => (.error e, [])
  | .found current =>
    if derivQueueSpec want.spec current.spec then
      (.ok current, [])
    else
      match store.writeErr with
      | some e => (.error e, [.updateOp "queue" current.name])
      | none =>
        (.ok { current with spec := want.spec },
         [.updateOp "queue" current.name])

/-- reconcileBinding from pkg/reconciler/broker (broker.go): the Broker
dead-letter binding; on a spec divergence this variant overlays the
desired spec and issues an update (it has no immutability guard). -/
def brokerReconcileBinding (store : StoreView Binding) (b : Broker) :
    Except String Binding × List WriteOp :=
  let want := newBinding b none
  match store.current with
  | .notFound =>
    match store.writeErr with
    | some e => (.error e, [.createOp "binding" want.name])
    | none => (.ok want, [.createOp "binding" want.name])
  | .failed e => (.error e, [])
  | .found current =>
    if derivBindingSpec want.spec current.spec then
      (.ok current, [])
    else
      match store.writeErr with
      | some e => (.error e, [.updateOp "binding" current.name])
      | none =>
        (.ok { current with spec := want.spec },
         [.updateOp "binding" current.name])

/-- reconcileSecret from pkg/reconciler/broker (broker.go): compares the
string data maps; returns no object. -/
def brokerReconcileSecret (store : StoreView Secret) (s : Secret) :
    Except String Unit × List WriteOp :=
  match store.current with
  | .notFound =>
    match store.writeErr with
    | some e => (.error e, [.createOp "secret" s.name])
    | none => (.ok (), [.createOp "secret" s.name])
  | .failed e => (.error e, [])
  | .found current =>
    if derivMap s.stringData current.stringData then
      (.ok (), [])
    else
      match store.writeErr with
      | some e => (.error e, [.updateOp "secret" current.name])
      | none => (.ok (), [.updateOp "secret" current.name])

/-- reconcileDeployment from pkg/reconciler/broker (broker.go): identical
upsert logic to the Trigger variant but only the error is surfaced. -/
def brokerReconcileDeployment (store : StoreView Deployment)
    (d : Deployment) : Except String Unit × List WriteOp :=
  match store.current with
  | .notFound =>
    match store.writeErr with
    | some e => (.error e, [.createOp "deployment" d.name])
    | none => (.ok (), [.createOp "deployment" d.name])
  | .failed e => (.error e, [])
  | .found current =>
    if derivTemplate d.spec.template current.spec.template then
      (.ok (), [])
    else
      match store.writeErr with
      | some e => (.error e, [.updateOp "deployment" current.name])
      | none => (.ok (), [.updateOp "deployment" current.name])

/-- reconcileService from pkg/reconciler/broker (broker.go): upsert the
service (the observed cluster IP is copied into the desired spec before
comparing), then return the endpoints for the service name. -/
def brokerReconcileService (store : StoreView Service)
    (endpointsRes : Lookup Endpoints) (svc : Service) :
    Except String Endpoints × List WriteOp :=
  let readEndpoints : List WriteOp → Except String Endpoints × List WriteOp :=
    fun ws =>
      match endpointsRes with
      | .found eps => (.ok eps, ws)
      | .notFound => (.error "endpoints not found", ws)
      | .failed e => (.error e, ws)
  match store.current with
  | .notFound =>
    match store.writeErr with
    | some e => (.error e, [.createOp "service" svc.name])
    | none => readEndpoints [.createOp "service" svc.name]
  | .failed e => (.error e, [])
  | .found current =>
    let desiredSpec := { svc.spec with clusterIP := current.spec.clusterIP }
    if derivServiceSpec desiredSpec current.spec then
      readEndpoints []
    else
      match store.writeErr with
      | some e => (.error e, [.updateOp "service" current.name])
      | none => readEndpoints [.updateOp "service" current.name]

/-! ### Trigger status marks

Modelled from the knative condition-manager semantics used by the source:
each Mark writes one named condition slot; InitializeConditions fills every
unset slot with Unknown. -/

def initializeConditions (st : TriggerStatus) : TriggerStatus :=
  { st with
    brokerCond := some (st.brokerCond.getD ⟨CStatus.unknown, ""⟩)
    dependencyCond := some (st.dependencyCond.getD ⟨CStatus.unknown, ""⟩)
    subscribedCond := some (st.subscribedCond.getD ⟨CStatus.unknown, ""⟩)
    subscriberResolvedCond :=
      some (st.subscriberResolvedCond.getD ⟨CStatus.unknown, ""⟩)
    deadLetterSinkCond :=
      some (st.deadLetterSinkCond.getD ⟨CStatus.unknown, ""⟩) }

def markBrokerFailed (st : TriggerStatus) (reason : String) : TriggerStatus :=
  { st with brokerCond := some ⟨CStatus.isFalse, reason⟩ }

def propagateBrokerCondition (st : TriggerStatus) (c : CondVal) :
    TriggerStatus :=
  { st with brokerCond := some c }

def markDependencySucceeded (st : TriggerStatus) : TriggerStatus :=
  { st with dependencyCond := some ⟨CStatus.isTrue, ""⟩ }

def markDependencyFailed (st : TriggerStatus) (reason : String) :
    TriggerStatus :=
  { st with dependencyCond := some ⟨CStatus.isFalse, reason⟩ }

def markDependencyUnknown (st : TriggerStatus) (reason : String) :
    TriggerStatus :=
  { st with dependencyCond := some ⟨CStatus.unknown, reason⟩ }

def markDeadLetterSinkNotConfigured (st : TriggerStatus) : TriggerStatus :=
  { st with
    deadLetterSinkCond := some ⟨CStatus.isTrue, "DeadLetterSinkNotConfigured"⟩ }

def markDeadLetterSinkResolvedSucceeded (st : TriggerStatus) : TriggerStatus :=
  { st with deadLetterSinkCond := some ⟨CStatus.isTrue, ""⟩ }

def markDeadLetterSinkResolvedFailed (st : TriggerStatus) (reason : String) :
    TriggerStatus :=
  { st with deadLetterSinkCond := some ⟨CStatus.isFalse, reason⟩ }

def markSubscriberResolvedSucceeded (st : TriggerStatus) : TriggerStatus :=
  { st with subscriberResolvedCond := some ⟨CStatus.isTrue, ""⟩ }

def markSubscriberResolvedFailed (st : TriggerStatus) (reason : String) :
    TriggerStatus :=
  { st with subscriberResolvedCond := some ⟨CStatus.isFalse, reason⟩ }

/-- PropagateSubscriptionCondition applied to the constant Ready=True
condition, as written in trigger.go. -/
def propagateSubscriptionCondition (st : TriggerStatus) : TriggerStatus :=
  { st with subscribedCond := some ⟨CStatus.isTrue, ""⟩ }

def getDependencyStatus (st : TriggerStatus) : CStatus :=
  (st.dependencyCond.getD ⟨CStatus.unknown, ""⟩).status

/-! ### Dependency annotation handling -/

/-- The watched dependency object: metadata generation, the observed
generation recorded in its status, and its Ready condition. -/
structure DepSource where
  generation : Int
  observedGeneration : Int
  readyCond : Option CondVal
deriving DecidableEq, Repr

/-- Outcome of the lister/get part of propagateDependencyReadiness. -/
inductive DepFetch where
  | listerFail (e : String)
  | depNotFound (e : String)
  | depGetFail (e : String)
  | fetched (d : DepSource)
deriving DecidableEq, Repr

/-- Outcome of the parse/track part of checkDependencyAnnotation. -/
inductive DepAnnVal where
  | parseFail (e : String)
  | trackFail (e : String)
  | tracked (f : DepFetch)
deriving DecidableEq, Repr

/-- PropagateDependencyStatus, modelled from the knative semantics: the
Dependency slot mirrors the dependency Ready condition. -/
def propagateDependencyStatus (st : TriggerStatus) (d : DepSource) :
    TriggerStatus :=
  match d.readyCond with
  | some c =>
    match c.status with
    | CStatus.isTrue => markDependencySucceeded st
    | CStatus.isFalse => markDependencyFailed st c.reason
    | CStatus.unknown => markDependencyUnknown st c.reason
  | none => markDependencyUnknown st "DependencyNotReported"

/-- propagateDependencyReadiness from trigger.go: lister and get failures
mark the slot and return an error; a generation mismatch between the
dependency metadata and its observed status marks the slot Unknown and
returns nil; otherwise the dependency Ready condition is propagated. -/
def propagateDependencyReadiness (st : TriggerStatus) (f : DepFetch) :
    TriggerStatus × Option String :=
  match f with
  | .listerFail e =>
    (markDependencyUnknown st "ListerDoesNotExist",
     some ("retrieving lister: " ++ e))
  | .depNotFound e =>
    (markDependencyFailed st "DependencyDoesNotExist",
     some ("getting the dependency: " ++ e))
  | .depGetFail e =>
    (markDependencyUnknown st "DependencyGetFailed",
     some ("getting the dependency: " ++ e))
  | .fetched d =>
    if d.generation ≠ d.observedGeneration then
      (markDependencyUnknown st "GenerationNotEqual", none)
    else
      (propagateDependencyStatus st d, none)

def depAnnotKey : String := "knative.dev/dependency"

/-- checkDependencyAnnotation from trigger.go. -/
def checkDependencyAnnotation (dep : DepAnnVal) (t : Trigger)
    (st : TriggerStatus) : TriggerStatus × Option String :=
  match lookupArg t.annots depAnnotKey with
  | some _ =>
    match dep with
    | .parseFail e =>
      (markDependencyFailed st "ReferenceError",
       some ("getting object ref from dependency annotation: " ++ e))
    | .trackFail e => (st, some ("tracking dependency: " ++ e))
    | .tracked f =>
      match propagateDependencyReadiness st f with
      | (st2, some e) => (st2, some ("propagating dependency readiness: " ++ e))
      | (st2, none) => (st2, none)
  | none => (markDependencySucceeded st, none)

/-! ### Trigger pipeline -/

/-- Environment of one Trigger ReconcileKind run: every store read, write
outcome and resolver outcome the pipeline can observe. -/
structure TriggerEnv where
  brokerClass : String
  dispatcherImage : String
  brokerLookup : Lookup Broker
  dep : DepAnnVal
  dlxStore : StoreView Exchange
  dlqStore : StoreView Queue
  dlqBindingStore : StoreView Binding
  dlsResolve : Except String String
  secretFetch : Except String Secret
  dlqDispStore : StoreView Deployment
  queueStore : StoreView Queue
  bindingStore : StoreView Binding
  subResolve : Except String String
  dispStore : StoreView Deployment
deriving Repr

/-- reconcileDispatcherDeployment from trigger.go: fetch the rabbitmq
secret and the Broker, build the dispatcher deployment, and upsert it. -/
def triggerReconcileDispatcherDeployment (env : TriggerEnv) (t : Trigger)
    (sub : String) (delivery : Option Delivery) :
    Except String Deployment × List WriteOp :=
  match env.secretFetch with
  | .error e => (.error e, [])
  | .ok secret =>
    match env.brokerLookup with
    | .notFound => (.error "broker not found", [])
    | .failed e => (.error e, [])
    | .found b =>
      let expected := makeDispatcherDeployment
        { dname := triggerDispatcherName t
          ns := t.ns
          image := env.dispatcherImage
          rabbitMQSecretName := secret.name
          queueName := createTriggerQueueName t
          brokerIngressURL := b.address
          subscriber := some sub
          dlx := false }
      triggerReconcileDeployment env.dispStore expected

/-- reconcileDLXDispatcherDeployment from trigger.go: as above but against
the Trigger dead-letter queue. Unlike the Broker variant, it never
deletes: the subscriber address is always supplied at its call site. -/
def triggerReconcileDLXDispatcherDeployment (env : TriggerEnv) (t : Trigger)
    (sub : String) : Except String Deployment × List WriteOp :=
  match env.secretFetch with
  | .error e => (.error e, [])
  | .ok secret =>
    match env.brokerLookup with
    | .notFound => (.error "broker not found", [])
    | .failed e => (.error e, [])
    | .found b =>
      let expected := makeDispatcherDeployment
        { dname := triggerDLXDispatcherName t
          ns := t.ns
          image := env.dispatcherImage
          rabbitMQSecretName := secret.name
          queueName := createTriggerDeadLetterQueueName t
          brokerIngressURL := b.address
          subscriber := some sub
          dlx := true }
      triggerReconcileDeployment env.dlqDispStore expected

/-- One pipeline step as recorded in the run trace, with the result the
step returned. -/
inductive TrigStep where
  | stepDLX (r : Except String Exchange)
  | stepDLQ (r : Except String Queue)
  | stepDLQBinding (r : Except String Binding)
  | stepResolveDLS (r : Except String String)
  | stepDLXDispatcher (r : Except String Deployment)
  | stepQueue (r : Except String Queue)
  | stepBinding (r : Except String Binding)
  | stepResolveSub (r : Except String String)
  | stepDispatcher (r : Except String Deployment)
deriving DecidableEq, Repr

/-- Result of one ReconcileKind run: final status, returned error (none =
nil), ordered step trace, and API writes issued. -/
structure TriggerRun where
  status : TriggerStatus
  rerr : Option String
  trace : List TrigStep
  writes : List WriteOp
deriving DecidableEq, Repr

/-- Result of one pipeline section: halt the run (status, returned error,
trace, writes) or continue with the updated status. -/
inductive SecRes where
  | halt (st : TriggerStatus) (e : Option String) (tr : List TrigStep)
      (ws : List WriteOp)
  | next (st : TriggerStatus) (tr : List TrigStep) (ws : List WriteOp)
deriving DecidableEq, Repr

/-- Dead-letter section of Trigger ReconcileKind (trigger.go lines
141-204): when the Trigger has a dead-letter sink, reconcile the Trigger
DLX exchange, DLQ, DLQ binding, resolve the sink and reconcile the DLX
dispatcher, halting on any not-ready step (nil) or error; when it has
none, mark the sink not configured and continue. -/
def dlsSection (env : TriggerEnv) (b : Broker) (t : Trigger)
    (st : TriggerStatus) : SecRes :=
  match t.spec.delivery with
  | none => SecRes.next (markDeadLetterSinkNotConfigured st) [] []
  | some delivery =>
    match delivery.deadLetterSink with
    | none => SecRes.next (markDeadLetterSinkNotConfigured st) [] []
    | some _ =>
      match triggerReconcileExchange env.dlxStore b t with
      | (.error e, ws1) =>
        SecRes.halt (markDependencyFailed st "ExchangeFailure") (some e)
          [.stepDLX (.error e)] ws1
      | (.ok dlx, ws1) =>
        if !(isReady dlx.conditions) then
          SecRes.halt (markDependencyFailed st "ExchangeFailure") none
            [.stepDLX (.ok dlx)] ws1
        else
          match triggerReconcileDLQ env.dlqStore b t with
          | (.error e, ws2) =>
            SecRes.halt (markDependencyFailed st "QueueFailure") (some e)
              [.stepDLX (.ok dlx), .stepDLQ (.error e)] (ws1 ++ ws2)
          | (.ok dlq, ws2) =>
            if !(isReady dlq.conditions) then
              SecRes.halt (markDependencyFailed st "QueueFailure") none
                [.stepDLX (.ok dlx), .stepDLQ (.ok dlq)] (ws1 ++ ws2)
            else
              match triggerReconcileDLQBinding env.dlqBindingStore b t with
              | (.error e, ws3) =>
                SecRes.halt (markDependencyFailed st "BindingFailure") (some e)
                  [.stepDLX (.ok dlx), .stepDLQ (.ok dlq),
                   .stepDLQBinding (.error e)] (ws1 ++ ws2 ++ ws3)
              | (.ok dlqb, ws3) =>
                if !(isReady dlqb.conditions) then
                  SecRes.halt (markDependencyFailed st "BindingFailure") none
                    [.stepDLX (.ok dlx), .stepDLQ (.ok dlq),
                     .stepDLQBinding (.ok dlqb)] (ws1 ++ ws2 ++ ws3)
                else
                  match env.dlsResolve with
                  | .error e =>
                    SecRes.halt
                      { markDeadLetterSinkResolvedFailed st
                          "Unable to get the DeadLetterSink URI" with
                        deadLetterSinkURI := none } (some e)
                      [.stepDLX (.ok dlx), .stepDLQ (.ok dlq),
                       .stepDLQBinding (.ok dlqb), .stepResolveDLS (.error e)]
                      (ws1 ++ ws2 ++ ws3)
                  | .ok uri =>
                    let st2 :=
                      { markDeadLetterSinkResolvedSucceeded st with
                        deadLetterSinkURI := some uri }
                    match triggerReconcileDLXDispatcherDeployment env t uri with
                    | (.error e, ws4) =>
                      SecRes.halt (markDependencyFailed st2 "DeploymentFailure")
                        (some e)
                        [.stepDLX (.ok dlx), .stepDLQ (.ok dlq),
                         .stepDLQBinding (.ok dlqb), .stepResolveDLS (.ok uri),
                         .stepDLXDispatcher (.error e)]
                        (ws1 ++ ws2 ++ ws3 ++ ws4)
                    | (.ok dd, ws4) =>
                      SecRes.next st2
                        [.stepDLX (.ok dlx), .stepDLQ (.ok dlq),
                         .stepDLQBinding (.ok dlqb), .stepResolveDLS (.ok uri),
                         .stepDLXDispatcher (.ok dd)]
                        (ws1 ++ ws2 ++ ws3 ++ ws4)

/-- Primary queue and binding section of Trigger ReconcileKind (trigger.go
lines 205-236). -/
def queueBindingSection (env : TriggerEnv) (b : Broker) (t : Trigger)
    (st : TriggerStatus) : SecRes :=
  match triggerReconcileQueue env.queueStore b t with
  | (.error e, ws1) =>
    SecRes.halt (markDependencyFailed st "QueueFailure") (some e)
      [.stepQueue (.error e)] ws1
  | (.ok q, ws1) =>
    if !(isReady q.conditions) then
      SecRes.halt (markDependencyFailed st "QueueFailure") none
        [.stepQueue (.ok q)] ws1
    else
      match triggerReconcileBinding env.bindingStore b t with
      | (.error e, ws2) =>
        SecRes.halt (markDependencyFailed st "BindingFailure") (some e)
          [.stepQueue (.ok q), .stepBinding (.error e)] (ws1 ++ ws2)
      | (.ok bd, ws2) =>
        if !(isReady bd.conditions) then
          SecRes.halt (markDependencyFailed st "BindingFailure") none
            [.stepQueue (.ok q), .stepBinding (.ok bd)] (ws1 ++ ws2)
        else
          SecRes.next (markDependencySucceeded st)
            [.stepQueue (.ok q), .stepBinding (.ok bd)] (ws1 ++ ws2)

/-- Subscriber resolution and primary dispatcher section of Trigger
ReconcileKind (trigger.go lines 237-275); this section always ends the
run. -/
def subscriberSection (env : TriggerEnv) (b : Broker) (t : Trigger)
    (st : TriggerStatus) : SecRes :=
  match env.subResolve with
  | .error e =>
    SecRes.halt
      { markSubscriberResolvedFailed st
          "Unable to get the Subscriber URI" with
        subscriberURI := none } (some e) [.stepResolveSub (.error e)] []
  | .ok uri =>
    let st1 :=
      propagateSubscriptionCondition
        (markSubscriberResolvedSucceeded { st with subscriberURI := some uri })
    let delivery :=
      match t.spec.delivery with
      | some d => some d
      | none => b.spec.delivery
    match triggerReconcileDispatcherDeployment env t uri delivery with
    | (.error e, ws) =>
      SecRes.halt (markDependencyFailed st1 "DeploymentFailure") (some e)
        [.stepResolveSub (.ok uri), .stepDispatcher (.error e)] ws
    | (.ok dd, ws) =>
      SecRes.halt st1 none
        [.stepResolveSub (.ok uri), .stepDispatcher (.ok dd)] ws

def brokerClassKey : String := "eventing.knative.dev/broker.class"

/-- ReconcileKind from pkg/reconciler/trigger/trigger.go: initialize
conditions, gate on Broker existence, broker class, Broker readiness, the
dependency annotation, and the operator strategy, then run the dead-letter
section, the primary queue/binding section and the subscriber/dispatcher
section in order, short-circuiting as the source does. -/
def triggerReconcileKind (env : TriggerEnv) (t : Trigger) : TriggerRun :=
  let st0 := initializeConditions t.status
  match env.brokerLookup with
  | .notFound =>
    { status := markBrokerFailed st0 "BrokerDoesNotExist", rerr := none
      trace := [], writes := [] }
  | .failed e =>
    { status := markBrokerFailed st0 "FailedToGetBroker"
      rerr := some ("retrieving broker: " ++ e), trace := [], writes := [] }
  | .found broker =>
    if lookupArgD broker.annots brokerClassKey ≠ env.brokerClass then
      { status := st0, rerr := none, trace := [], writes := [] }
    else
      let st1 := { st0 with observedGeneration := some t.generation }
      let st2 := propagateBrokerCondition st1 broker.topLevel
      if !(brokerIsReady broker) then
        { status := st2, rerr := none, trace := [], writes := [] }
      else
        match checkDependencyAnnotation env.dep t st2 with
        | (st3, some e) =>
          { status := st3, rerr := some e, trace := [], writes := [] }
        | (st3, none) =>
          if getDependencyStatus st3 ≠ CStatus.isTrue then
            { status := st3, rerr := none, trace := [], writes := [] }
          else if !(isUsingOperator (some broker)) then
            { status := markDependencyFailed st3 "ReconcileFailure"
              rerr := none, trace := [], writes := [] }
          else
            match dlsSection env broker t st3 with
            | .halt st e tr ws =>
              { status := st, rerr := e, trace := tr, writes := ws }
            | .next st4 tr4 ws4 =>
              match queueBindingSection env broker t st4 with
              | .halt st e tr ws =>
                { status := st, rerr := e, trace := tr4 ++ tr
                  writes := ws4 ++ ws }
              | .next st5 tr5 ws5 =>
                match subscriberSection env broker t st5 with
                | .halt st e tr ws =>
                  { status := st, rerr := e, trace := tr4 ++ tr5 ++ tr
                    writes := ws4 ++ ws5 ++ ws }
                | .next st6 tr6 ws6 =>
                  { status := st6, rerr := none, trace := tr4 ++ tr5 ++ tr6
                    writes := ws4 ++ ws5 ++ ws6 }

/-! ### Broker status and marks (pkg/reconciler/broker) -/

structure BrokerStatusRec where
  exchangeCond : Option CondVal
  dlxCond : Option CondVal
  deadLetterSinkCond : Option CondVal
  secretCond : Option CondVal
  ingressCond : Option CondVal
  addressableCond : Option CondVal
  address : Option String
deriving DecidableEq, Repr

def markExchangeFailed (st : BrokerStatusRec) (reason : String) :
    BrokerStatusRec :=
  { st with exchangeCond := some ⟨CStatus.isFalse, reason⟩ }

def markExchangeReady (st : BrokerStatusRec) : BrokerStatusRec :=
  { st with exchangeCond := some ⟨CStatus.isTrue, ""⟩ }

def markDLXFailed (st : BrokerStatusRec) (reason : String) : BrokerStatusRec :=
  { st with dlxCond := some ⟨CStatus.isFalse, reason⟩ }

def markDLXReady (st : BrokerStatusRec) : BrokerStatusRec :=
  { st with dlxCond := some ⟨CStatus.isTrue, ""⟩ }

def markDeadLetterSinkFailed (st : BrokerStatusRec) (reason : String) :
    BrokerStatusRec :=
  { st with deadLetterSinkCond := some ⟨CStatus.isFalse, reason⟩ }

def markDeadLetterSinkReady (st : BrokerStatusRec) : BrokerStatusRec :=
  { st with deadLetterSinkCond := some ⟨CStatus.isTrue, ""⟩ }

def markSecretFailed (st : BrokerStatusRec) (reason : String) :
    BrokerStatusRec :=
  { st with secretCond := some ⟨CStatus.isFalse, reason⟩ }

def markSecretReady (st : BrokerStatusRec) : BrokerStatusRec :=
  { st with secretCond := some ⟨CStatus.isTrue, ""⟩ }

def markIngressFailed (st : BrokerStatusRec) (reason : String) :
    BrokerStatusRec :=
  { st with ingressCond := some ⟨CStatus.isFalse, reason⟩ }

/-- PropagateIngressAvailability, modelled from the knative semantics: the
Ingress slot reflects whether the endpoints carry ready addresses. -/
def propagateIngressAvailability (st : BrokerStatusRec) (eps : Endpoints) :
    BrokerStatusRec :=
  if eps.hasReadyAddresses then
    { st with ingressCond := some ⟨CStatus.isTrue, ""⟩ }
  else
    { st with ingressCond := some ⟨CStatus.isFalse, "EndpointsUnavailable"⟩ }

def setAddress (st : BrokerStatusRec) (url : Option String) :
    BrokerStatusRec :=
  match url with
  | some u =>
    { st with address := some u
              addressableCond := some ⟨CStatus.isTrue, ""⟩ }
  | none =>
    { st with address := none
              addressableCond := some ⟨CStatus.isFalse, "NotAddressable"⟩ }

/-- Modelled from the spec: network.GetServiceHostname. -/
def serviceHostname (n ns : String) : String :=
  n ++ "." ++ ns ++ ".svc.cluster.local"

/-- Modelled from the spec: resources.MakeSecret, the deterministic
credentials secret for the Broker ingress (resources package not under
src). -/
def makeSecret (b : Broker) : Secret :=
  { name := rabbitSecretName b.name
    ns := b.ns
    stringData := [("brokerURL", "amqp://" ++ configName b)] }

/-- Modelled from the spec: resources.MakeIngressDeployment (resources
package not under src). -/
def makeIngressDeployment (b : Broker) (image : String) : Deployment :=
  { name := ingressDeploymentName b
    ns := b.ns
    spec :=
      { template :=
          { image := image
            envPairs := [("SECRET", rabbitSecretName b.name)] } } }

/-- Modelled from the spec: resources.MakeIngressService (resources
package not under src). -/
def makeIngressService (b : Broker) : Service :=
  { name := ingressServiceName b
    ns := b.ns
    spec :=
      { clusterIP := ""
        selector :=
          [("eventing.knative.dev/brokerRole", "ingress"),
           ("eventing.knative.dev/broker", b.name)] } }

/-- reconcileDLXDispatcherDeployment from pkg/reconciler/broker
(broker.go): with a resolved sink the dispatcher deployment is upserted;
without one, an existing dispatcher deployment is deleted. statusAddress
is the Broker ingress address as already written into the status by the
pipeline. -/
def brokerReconcileDLXDispatcherDeployment (store : StoreView Deployment)
    (dispatcherImage : String) (b : Broker) (statusAddress : Option String)
    (sub : Option String) : Except String Unit × List WriteOp :=
  match sub with
  | some u =>
    let expected := makeDispatcherDeployment
      { dname := brokerDispatcherName b.name
        ns := b.ns
        image := dispatcherImage
        rabbitMQSecretName := rabbitSecretName b.name
        queueName := createBrokerDeadLetterQueueName b
        brokerIngressURL := statusAddress
        subscriber := some u
        dlx := false }
    brokerReconcileDeployment store expected
  | none =>
    match store.current with
    | .notFound => (.ok (), [])
    | .failed e => (.error e, [])
    | .found _ =>
      match store.writeErr with
      | some e =>
        (.error e, [.deleteOp "deployment" (brokerDispatcherName b.name)])
      | none =>
        (.ok (), [.deleteOp "deployment" (brokerDispatcherName b.name)])

/-! ### Broker pipeline (pkg/reconciler/broker) -/

inductive BrokStep where
  | bExchange (r : Except String Exchange)
  | bDLX (r : Except String Exchange)
  | bQueue (r : Except String Queue)
  | bBinding (r : Except String Binding)
  | bSecret (r : Except String Unit)
  | bIngressDeploy (r : Except String Unit)
  | bService (r : Except String Endpoints)
  | bResolveDLS (r : Except String String)
  | bDispatcher (r : Except String Unit)
deriving DecidableEq, Repr

structure BrokerRun where
  status : BrokerStatusRec
  rerr : Option String
  trace : List BrokStep
  writes : List WriteOp
deriving DecidableEq, Repr

/-- Environment of one Broker ReconcileKind run. -/
structure BrokerEnv where
  ingressImage : String
  dispatcherImage : String
  argsFetch : Option String
  exchStore : StoreView Exchange
  dlxStore : StoreView Exchange
  queueStore : StoreView Queue
  bindingStore : StoreView Binding
  secretStore : StoreView Secret
  ingressDeployStore : StoreView Deployment
  serviceStore : StoreView Service
  endpointsRes : Lookup Endpoints
  dlsResolve : Except String String
  dispStore : StoreView Deployment
deriving Repr

/-- reconcileCommonIngressResources from pkg/reconciler/broker
(broker.go): secret, ingress deployment, ingress service, address, then
dead-letter sink resolution and the DLX dispatcher. -/
def reconcileCommonIngressResources (env : BrokerEnv) (s : Secret)
    (b : Broker) (st : BrokerStatusRec) : BrokerRun :=
  match brokerReconcileSecret env.secretStore s with
  | (.error e, ws1) =>
    { status := markSecretFailed st "SecretFailure", rerr := some e
      trace := [.bSecret (.error e)], writes := ws1 }
  | (.ok _, ws1) =>
    let stA := markSecretReady st
    match brokerReconcileDeployment env.ingressDeployStore
        (makeIngressDeployment b env.ingressImage) with
    | (.error e, ws2) =>
      { status := markIngressFailed stA "DeploymentFailure", rerr := some e
        trace := [.bSecret (.ok ()), .bIngressDeploy (.error e)]
        writes := ws1 ++ ws2 }
    | (.ok _, ws2) =>
      match brokerReconcileService env.serviceStore env.endpointsRes
          (makeIngressService b) with
      | (.error e, ws3) =>
        { status := markIngressFailed stA "ServiceFailure", rerr := some e
          trace := [.bSecret (.ok ()), .bIngressDeploy (.ok ()),
                    .bService (.error e)]
          writes := ws1 ++ ws2 ++ ws3 }
      | (.ok eps, ws3) =>
        let stB := propagateIngressAvailability stA eps
        let stC := setAddress stB (some (serviceHostname eps.name eps.ns))
        let preTrace : List BrokStep :=
          [.bSecret (.ok ()), .bIngressDeploy (.ok ()), .bService (.ok eps)]
        let preWrites := ws1 ++ ws2 ++ ws3
        let tail : Option String → List BrokStep → BrokerRun :=
          fun dlsURI tr =>
            match brokerReconcileDLXDispatcherDeployment env.dispStore
                env.dispatcherImage b stC.address dlsURI with
            | (.error e, ws4) =>
              { status := markDeadLetterSinkFailed stC "DeploymentFailure"
                rerr := some e
                trace := preTrace ++ tr ++ [.bDispatcher (.error e)]
                writes := preWrites ++ ws4 }
            | (.ok _, ws4) =>
              { status := stC, rerr := none
                trace := preTrace ++ tr ++ [.bDispatcher (.ok ())]
                writes := preWrites ++ ws4 }
        match b.spec.delivery with
        | some delivery =>
          match delivery.deadLetterSink with
          | some _ =>
            match env.dlsResolve with
            | .error e =>
              { status :=
                  markDeadLetterSinkFailed stC
                    "Unable to get the DeadLetterSink URI"
                rerr := some e
                trace := preTrace ++ [.bResolveDLS (.error e)]
                writes := preWrites }
            | .ok uri => tail (some uri) [.bResolveDLS (.ok uri)]
          | none => tail none []
        | none => tail none []

/-- reconcileUsingCRD from pkg/reconciler/broker (broker.go): primary
Exchange, DLX Exchange, dead-letter Queue, dead-letter Binding, each gated
on readiness, then the common ingress resources. -/
def reconcileUsingCRD (env : BrokerEnv) (b : Broker) (st : BrokerStatusRec) :
    BrokerRun :=
  let args : ExchangeArgs := { broker := b, trigger := none, dlx := false }
  match brokerReconcileExchange env.exchStore args with
  | (.error e, ws1) =>
    { status := markExchangeFailed st "ExchangeFailure", rerr := some e
      trace := [.bExchange (.error e)], writes := ws1 }
  | (.ok exch, ws1) =>
    if !(isReady exch.conditions) then
      { status := markExchangeFailed st "ExchangeFailure", rerr := none
        trace := [.bExchange (.ok exch)], writes := ws1 }
    else
      match brokerReconcileExchange env.dlxStore { args with dlx := true } with
      | (.error e, ws2) =>
        { status := markExchangeFailed st "ExchangeFailure", rerr := some e
          trace := [.bExchange (.ok exch), .bDLX (.error e)]
          writes := ws1 ++ ws2 }
      | (.ok dlx, ws2) =>
        if !(isReady dlx.conditions) then
          { status := markExchangeFailed st "ExchangeFailure", rerr := none
            trace := [.bExchange (.ok exch), .bDLX (.ok dlx)]
            writes := ws1 ++ ws2 }
        else
          let st1 := markExchangeReady st
          match brokerReconcileQueue env.queueStore b with
          | (.error e, ws3) =>
            { status := markDLXFailed st1 "QueueFailure", rerr := some e
              trace := [.bExchange (.ok exch), .bDLX (.ok dlx),
                        .bQueue (.error e)]
              writes := ws1 ++ ws2 ++ ws3 }
          | (.ok q, ws3) =>
            if !(isReady q.conditions) then
              { status := markDLXFailed st1 "QueueFailure", rerr := none
                trace := [.bExchange (.ok exch), .bDLX (.ok dlx),
                          .bQueue (.ok q)]
                writes := ws1 ++ ws2 ++ ws3 }
            else
              let st2 := markDLXReady st1
              match brokerReconcileBinding env.bindingStore b with
              | (.error e, ws4) =>
                { status := markDeadLetterSinkFailed st2 "DLQ binding"
                  rerr := some e
                  trace := [.bExchange (.ok exch), .bDLX (.ok dlx),
                            .bQueue (.ok q), .bBinding (.error e)]
                  writes := ws1 ++ ws2 ++ ws3 ++ ws4 }
              | (.ok bd, ws4) =>
                if !(isReady bd.conditions) then
                  { status := markDeadLetterSinkFailed st2 "DLQ binding"
                    rerr := none
                    trace := [.bExchange (.ok exch), .bDLX (.ok dlx),
                              .bQueue (.ok q), .bBinding (.ok bd)]
                    writes := ws1 ++ ws2 ++ ws3 ++ ws4 }
                else
                  let st3 := markDeadLetterSinkReady st2
                  let r := reconcileCommonIngressResources env (makeSecret b) b st3
                  { status := r.status, rerr := r.rerr
                    trace := [.bExchange (.ok exch), .bDLX (.ok dlx),
                              .bQueue (.ok q), .bBinding (.ok bd)] ++ r.trace
                    writes := ws1 ++ ws2 ++ ws3 ++ ws4 ++ r.writes }

/-- ReconcileKind from pkg/reconciler/broker (broker.go): fetch the
exchange args, gate on the operator strategy, then run the CRD pipeline. -/
def brokerReconcileKind (env : BrokerEnv) (b : Broker)
    (st : BrokerStatusRec) : BrokerRun :=
  match env.argsFetch with
  | some e =>
    { status := markExchangeFailed st "ExchangeCredentialsUnavailable"
      rerr := some e, trace := [], writes := [] }
  | none =>
    if !(isUsingOperator (some b)) then
      { status := markExchangeFailed st "ReconcileFailure", rerr := none
        trace := [], writes := [] }
    else
      reconcileUsingCRD env b st

/-! ### Standalone Broker finalizer (pkg/reconciler/brokerstandalone) -/

/-- Environment of one FinalizeKind run: exchange-args retrieval outcome
and the outcome of each driver deletion. -/
structure FinalizeEnv where
  argsFetch : Option String
  deleteExchangeErr : Option String
  deleteDLXErr : Option String
  deleteQueueErr : Option String
deriving DecidableEq, Repr

/-- Result of one FinalizeKind run: returned error, deletions attempted,
and logged failures. -/
structure FinalizeRun where
  rerr : Option String
  deletes : List WriteOp
  logs : List String
deriving DecidableEq, Repr

/-- FinalizeKind from pkg/reconciler/brokerstandalone/broker.go: under the
operator strategy everything is left to garbage collection; otherwise the
primary exchange, the DLX exchange and the dead-letter queue are deleted
through the driver, and every failure (args retrieval included) is logged
and never returned. -/
def brokerFinalizeKind (env : FinalizeEnv) (b : Broker) : FinalizeRun :=
  if isUsingOperator (some b) then
    { rerr := none, deletes := [], logs := [] }
  else
    match env.argsFetch with
    | some e =>
      { rerr := none, deletes := []
        logs := ["Failed to get Exchange args: " ++ e] }
    | none =>
      let l1 :=
        match env.deleteExchangeErr with
        | some e => ["Problem deleting exchange: " ++ e]
        | none => []
      let l2 :=
        match env.deleteDLXErr with
        | some e => ["Problem deleting DLX exchange: " ++ e]
        | none => []
      let l3 :=
        match env.deleteQueueErr with
        | some e => ["Problem deleting DLX queue: " ++ e]
        | none => []
      { rerr := none
        deletes :=
          [.deleteOp "exchange" (brokerExchangeName b false),
           .deleteOp "exchange" (brokerExchangeName b true),
           .deleteOp "queue" (createBrokerDeadLetterQueueName b)]
        logs := l1 ++ l2 ++ l3 }

/-! ### Concrete fixtures for witnesses and counterexamples -/

def emptyTriggerStatus : TriggerStatus :=
  { brokerCond := none, dependencyCond := none, subscribedCond := none
    subscriberResolvedCond := none, deadLetterSinkCond := none
    observedGeneration := none, subscriberURI := none
    deadLetterSinkURI := none }

def broker0 : Broker :=
  { name := "testbroker", ns := "foobar", uid := "broker-test-uid"
    annots := [(brokerClassKey, "RabbitMQBroker")]
    spec :=
      { config := some { kind := "RabbitmqCluster", name := "rabbitmqcluster" }
        delivery := none }
    topLevel := ⟨CStatus.isTrue, ""⟩
    address := some "http://testbroker-broker-ingress.foobar.svc.cluster.local" }

def trigger0 : Trigger :=
  { name := "my-trigger", ns := "foobar", uid := "trigger-test-uid"
    generation := 1, annots := []
    spec :=
      { broker := "testbroker", filter := none, delivery := none
        subscriber := "subscriber-svc" }
    status := emptyTriggerStatus }

/-- Trigger with its own dead-letter sink, to drive the dead-letter
section. -/
def triggerD : Trigger :=
  { trigger0 with
    spec := { trigger0.spec with
              delivery := some { deadLetterSink := some "dls-dest" } } }

/-- Trigger with a filter that collides with the reserved x-match key. -/
def triggerF : Trigger :=
  { trigger0 with
    spec := { trigger0.spec with
              filter := some { attributes := some [("x-match", "any")] } } }

def readyConds : List RCondition := [⟨"Ready", CStatus.isTrue⟩]

def withReadyE (e : Exchange) : Exchange := { e with conditions := readyConds }

def withReadyQ (q : Queue) : Queue := { q with conditions := readyConds }

def withReadyB (bd : Binding) : Binding := { bd with conditions := readyConds }

/-! ### C2 -/

/-- C2: the readiness evaluator isReady returns true exactly when the
condition list is non-empty and every condition has status True; the empty
list is not ready. -/
theorem c2_isReady_characterization :
    (∀ cs : List RCondition,
      isReady cs = true ↔ cs ≠ [] ∧ ∀ c ∈ cs, c.status = CStatus.isTrue) ∧
    isReady [] = false :=
  ⟨isReady_eq_true_iff, rfl⟩

theorem c2_isReady_characterization_witness :
    isReady [⟨"Ready", CStatus.isTrue⟩, ⟨"Admin", CStatus.isTrue⟩] = true ∧
    isReady [⟨"Ready", CStatus.isTrue⟩, ⟨"Admin", CStatus.isFalse⟩] = false ∧
    isReady [] = false := by
  refine ⟨(c2_isReady_characterization.1 _).mpr (by simp), ?_, c2_isReady_characterization.2⟩
  by_contra h
  have h2 := (c2_isReady_characterization.1
    [⟨"Ready", CStatus.isTrue⟩, ⟨"Admin", CStatus.isFalse⟩]).mp (by
      revert h
      cases hh : isReady [⟨"Ready", CStatus.isTrue⟩, ⟨"Admin", CStatus.isFalse⟩] <;> simp)
  have := h2.2 ⟨"Admin", CStatus.isFalse⟩ (by simp)
  simp at this

/-! ### C9 -/

/-- C9: FinalizeKind of the standalone Broker reconciler returns nil for
every environment, regardless of any deletion failure; under the Direct
strategy with retrievable args it attempts exactly the three driver
deletions. -/
theorem c9_finalize_never_blocks :
    ∀ (env : FinalizeEnv) (b : Broker),
      (brokerFinalizeKind env b).rerr = none ∧
      (isUsingOperator (some b) = false → env.argsFetch = none →
        (brokerFinalizeKind env b).deletes =
          [.deleteOp "exchange" (brokerExchangeName b false),
           .deleteOp "exchange" (brokerExchangeName b true),
           .deleteOp "queue" (createBrokerDeadLetterQueueName b)]) := by
  intro env b
  unfold brokerFinalizeKind
  by_cases hop : isUsingOperator (some b) = true
  · simp [hop]
  · have hop2 : isUsingOperator (some b) = false := by
      revert hop; cases isUsingOperator (some b) <;> simp
    simp only [hop2, Bool.false_eq_true, if_false]
    cases env.argsFetch <;> simp

def brokerDirect : Broker :=
  { broker0 with
    spec := { broker0.spec with
              config := some { kind := "Secret", name := "rabbit-secret" } } }

theorem c9_finalize_never_blocks_witness :
    (brokerFinalizeKind
      { argsFetch := none, deleteExchangeErr := some "conn refused"
        deleteDLXErr := some "conn refused"
        deleteQueueErr := some "conn refused" } brokerDirect).rerr = none ∧
    (brokerFinalizeKind
      { argsFetch := none, deleteExchangeErr := some "conn refused"
        deleteDLXErr := some "conn refused"
        deleteQueueErr := some "conn refused" } brokerDirect).deletes =
      [.deleteOp "exchange" (brokerExchangeName brokerDirect false),
       .deleteOp "exchange" (brokerExchangeName brokerDirect true),
       .deleteOp "queue" (createBrokerDeadLetterQueueName brokerDirect)] := by
  refine ⟨(c9_finalize_never_blocks _ brokerDirect).1,
          (c9_finalize_never_blocks _ brokerDirect).2 (by decide) rfl⟩

/-! ### Reflexivity of the partial-match comparison -/

theorem matchStr_refl (s : String) : matchStr s s = true := by
  simp [matchStr]

theorem matchBool_refl (b : Bool) : matchBool b b = true := by
  cases b <;> simp [matchBool]

theorem matchOptArgs_refl (a : Option (List (String × String))) :
    matchOptArgs a a = true := by
  cases a <;> simp [matchOptArgs]

theorem derivQueueSpec_refl (q : QueueSpec) : derivQueueSpec q q = true := by
  simp [derivQueueSpec, matchStr_refl, matchBool_refl, matchOptArgs_refl]

/-! ### C3 -/

/-- C3: for the upserted kinds, a found object whose observed spec
partial-matches the desired spec is returned unchanged with no write; in
particular a second run over a store already holding the desired queue
performs zero writes. -/
theorem c3_partial_match_no_write :
    (∀ (s : StoreView Queue) (b : Broker) (t : Trigger) (cur : Queue),
        s.current = Lookup.found cur →
        derivQueueSpec (newQueue b (some t)).spec cur.spec = true →
        triggerReconcileQueue s b t = (.ok cur, [])) ∧
    (∀ (s : StoreView Exchange) (b : Broker) (t : Trigger) (cur : Exchange),
        s.current = Lookup.found cur →
        derivExchangeSpec
          (newExchange { broker := b, trigger := some t, dlx := true }).spec
          cur.spec = true →
        triggerReconcileExchange s b t = (.ok cur, [])) ∧
    (∀ (s : StoreView Deployment) (d : Deployment) (cur : Deployment),
        s.current = Lookup.found cur →
        derivTemplate d.spec.template cur.spec.template = true →
        triggerReconcileDeployment s d = (.ok cur, [])) ∧
    (∀ (s : StoreView Queue) (b : Broker) (t : Trigger),
        s.current = Lookup.found (newQueue b (some t)) →
        triggerReconcileQueue s b t = (.ok (newQueue b (some t)), [])) := by
  refine ⟨?_, ?_, ?_, ?_⟩
  · intro s b t cur hcur hderiv
    unfold triggerReconcileQueue
    rw [hcur]
    simp [hderiv]
  · intro s b t cur hcur hderiv
    unfold triggerReconcileExchange
    rw [hcur]
    simp [hderiv]
  · intro s d cur hcur hderiv
    unfold triggerReconcileDeployment
    rw [hcur]
    simp [hderiv]
  · intro s b t hcur
    unfold triggerReconcileQueue
    rw [hcur]
    simp [derivQueueSpec_refl]

theorem c3_partial_match_no_write_witness :
    triggerReconcileQueue
      ⟨Lookup.found (withReadyQ (newQueue broker0 (some trigger0))), none⟩
      broker0 trigger0 =
      (.ok (withReadyQ (newQueue broker0 (some trigger0))), []) :=
  c3_partial_match_no_write.1 _ _ _ _ rfl (by decide)

/-! ### C1 -/

/-- Observed Broker dead-letter binding whose argument bytes diverge from
the desired spec. -/
def c1BrokerCur : Binding :=
  { newBinding broker0 none with
    spec := { (newBinding broker0 none).spec with args := some [] } }

/-- C1 counterexample: on the Broker dead-letter binding, a spec
divergence on the existing binding is not a terminal error; the reconciler
overlays the desired spec and issues an update write. -/
theorem c1_counterexample_broker_binding_updates :
    derivBindingSpec (newBinding broker0 none).spec c1BrokerCur.spec = false ∧
    brokerReconcileBinding ⟨Lookup.found c1BrokerCur, none⟩ broker0 =
      (.ok { c1BrokerCur with spec := (newBinding broker0 none).spec },
       [.updateOp "binding" c1BrokerCur.name]) := by
  decide

/-- C1 amended: the Trigger binding reconcilers (primary and dead-letter)
return the terminal immutability error with no write when the existing
binding diverges; the Broker dead-letter binding reconciler instead
overlays the desired spec and issues an update. -/
theorem c1_amended_binding_immutability :
    (∀ (s : StoreView Binding) (b : Broker) (t : Trigger) (cur : Binding),
        s.current = Lookup.found cur →
        derivBindingSpec (newBinding b (some t)).spec cur.spec = false →
        triggerReconcileBinding s b t = (.error bindingImmutableErr, [])) ∧
    (∀ (s : StoreView Binding) (b : Broker) (t : Trigger) (cur : Binding),
        s.current = Lookup.found cur →
        derivBindingSpec (newTriggerDLQBinding b t).spec cur.spec = false →
        triggerReconcileDLQBinding s b t = (.error bindingImmutableErr, [])) ∧
    (∀ (s : StoreView Binding) (b : Broker) (cur : Binding),
        s.current = Lookup.found cur → s.writeErr = none →
        derivBindingSpec (newBinding b none).spec cur.spec = false →
        brokerReconcileBinding s b =
          (.ok { cur with spec := (newBinding b none).spec },
           [.updateOp "binding" cur.name])) := by
  refine ⟨?_, ?_, ?_⟩
  · intro s b t cur hcur hderiv
    unfold triggerReconcileBinding
    rw [hcur]
    simp [hderiv]
  · intro s b t cur hcur hderiv
    unfold triggerReconcileDLQBinding
    rw [hcur]
    simp [hderiv]
  · intro s b cur hcur hwe hderiv
    unfold brokerReconcileBinding
    rw [hcur, hwe]
    simp [hderiv]

/-- Changing the Trigger filter after the binding exists: the desired spec
built from the filtered Trigger diverges from the stored binding and the
reconcile returns the terminal error with no write. -/
theorem c1_amended_binding_immutability_witness :
    triggerReconcileBinding
      ⟨Lookup.found (withReadyB (newBinding broker0 (some trigger0))), none⟩
      broker0 triggerF = (.error bindingImmutableErr, []) :=
  c1_amended_binding_immutability.1 _ _ _ _ rfl (by decide)

/-! ### Canonicalization lemmas for C10 -/

theorem insertByKey_perm (x : String × String) (l : List (String × String)) :
    (insertByKey x l).Perm (x :: l) := by
  induction l with
  | nil => simp [insertByKey]
  | cons y ys ih =>
    unfold insertByKey
    by_cases h : keyLe x.1 y.1
    · simp [h]
    · simp only [h, Bool.false_eq_true, if_false]
      exact (ih.cons y).trans (List.Perm.swap x y ys)

theorem canonArgs_perm (l : List (String × String)) :
    (canonArgs l).Perm l := by
  induction l with
  | nil => simp [canonArgs]
  | cons x xs ih =>
    unfold canonArgs
    simp only [List.foldr_cons]
    exact (insertByKey_perm x _).trans (ih.cons x)

theorem mapKeys_mapInsert_mem (m : List (String × String)) (k v x : String)
    (h : x ∈ mapKeys (mapInsert m k v)) : x = k ∨ x ∈ mapKeys m := by
  induction m with
  | nil => simpa [mapInsert, mapKeys] using h
  | cons p rest ih =>
    obtain ⟨k', v'⟩ := p
    by_cases hk : k' = k
    · subst hk
      simp only [mapInsert, beq_self_eq_true, if_true] at h
      simp only [mapKeys, List.map_cons, List.mem_cons] at h ⊢
      tauto
    · simp only [mapInsert, beq_iff_eq, hk, if_false] at h
      simp only [mapKeys, List.map_cons, List.mem_cons] at h ⊢
      rcases h with h | h
      · tauto
      · rcases ih (by simpa [mapKeys] using h) with h2 | h2
        · tauto
        · simp [mapKeys] at h2
          tauto

theorem keysNodup_mapInsert (m : List (String × String)) (k v : String)
    (h : (mapKeys m).Nodup) : (mapKeys (mapInsert m k v)).Nodup := by
  induction m with
  | nil => simp [mapInsert, mapKeys]
  | cons p rest ih =>
    obtain ⟨k', v'⟩ := p
    simp only [mapKeys, List.map_cons, List.nodup_cons] at h
    by_cases hk : k' = k
    · subst hk
      simp only [mapInsert, beq_self_eq_true, if_true]
      simp only [mapKeys, List.map_cons, List.nodup_cons]
      exact ⟨by simpa [mapKeys] using h.1, h.2⟩
    · simp only [mapInsert, beq_iff_eq, hk, if_false]
      simp only [mapKeys, List.map_cons, List.nodup_cons]
      refine ⟨?_, ih h.2⟩
      intro hmem
      rcases mapKeys_mapInsert_mem rest k v k' (by simpa [mapKeys] using hmem)
        with h2 | h2
      · exact hk h2
      · exact (by simpa [mapKeys] using h.1 : k' ∉ List.map Prod.fst rest)
          (by simpa [mapKeys] using h2)

theorem keysNodup_foldl (attrs : List (String × String)) :
    ∀ base : List (String × String), (mapKeys base).Nodup →
      (mapKeys (attrs.foldl (fun m kv => mapInsert m kv.1 kv.2) base)).Nodup := by
  induction attrs with
  | nil => intro base h; simpa using h
  | cons p rest ih =>
    intro base h
    simp only [List.foldl_cons]
    exact ih _ (keysNodup_mapInsert base p.1 p.2 h)

theorem lookupArg_of_mem (l : List (String × String)) (k v : String)
    (hnd : (mapKeys l).Nodup) (hmem : (k, v) ∈ l) :
    lookupArg l k = some v := by
  induction l with
  | nil => simp at hmem
  | cons p rest ih =>
    obtain ⟨k', v'⟩ := p
    simp only [mapKeys, List.map_cons, List.nodup_cons] at hnd
    rcases List.mem_cons.mp hmem with heq | hrest
    · injection heq with h1 h2
      subst h1; subst h2
      simp [lookupArg]
    · have hkne : k' ≠ k := by
        intro hkeq
        subst hkeq
        have hmemK : k' ∈ List.map Prod.fst rest :=
          List.mem_map.mpr ⟨(k', v), hrest, rfl⟩
        have hnotin : k' ∉ List.map Prod.fst rest := by
          simpa [mapKeys] using hnd.1
        exact hnotin hmemK
      simp only [lookupArg, beq_iff_eq, hkne, if_false]
      exact ih hnd.2 hrest

theorem lookupArg_mem (l : List (String × String)) (k v : String)
    (h : lookupArg l k = some v) : (k, v) ∈ l := by
  induction l with
  | nil => simp [lookupArg] at h
  | cons p rest ih =>
    obtain ⟨k', v'⟩ := p
    by_cases hk : k' = k
    · subst hk
      simp only [lookupArg, beq_self_eq_true, if_true, Option.some.injEq] at h
      subst h
      simp
    · simp only [lookupArg, beq_iff_eq, hk, if_false] at h
      exact List.mem_cons_of_mem _ (ih h)

/-! ### C10 -/

/-- C10: the user filter attributes are merged into the binding arguments
after the reserved keys, so a filter entry for x-match or for the
owner-identification key ends up verbatim in the binding spec arguments,
overwriting the reserved value. -/
theorem c10_filter_overwrites_reserved :
    ∀ (b : Broker) (t : Trigger) (f : TriggerFilter)
      (attrs : List (String × String)) (k v : String),
      t.spec.filter = some f → f.attributes = some attrs →
      (mapKeys attrs).Nodup → (k, v) ∈ attrs →
      (k = "x-match" ∨ k = bindingKey) →
      lookupArg (bindingArguments b (some t)) k = some v ∧
      (newBinding b (some t)).spec.args =
        some (canonArgs (bindingArguments b (some t))) ∧
      lookupArg (canonArgs (bindingArguments b (some t))) k = some v := by
  intro b t f attrs k v hf ha hnd hmem hk
  have hbase :
      (mapKeys (mapInsert (mapInsert [] "x-match" "all")
        bindingKey t.name)).Nodup := by
    simp [mapInsert, mapKeys, bindingKey]
  have h1 : bindingArguments b (some t) =
      attrs.foldl (fun m kv => mapInsert m kv.1 kv.2)
        (mapInsert (mapInsert [] "x-match" "all") bindingKey t.name) := by
    simp only [bindingArguments, hf, ha]
  have hlook : lookupArg (bindingArguments b (some t)) k = some v := by
    rw [h1]
    exact lookupArg_foldl_mem attrs _ k v hnd hmem
  have hndAll : (mapKeys (bindingArguments b (some t))).Nodup := by
    rw [h1]
    exact keysNodup_foldl attrs _ hbase
  have hmemArgs : (k, v) ∈ bindingArguments b (some t) :=
    lookupArg_mem _ k v hlook
  have hmemC : (k, v) ∈ canonArgs (bindingArguments b (some t)) :=
    ((canonArgs_perm _).mem_iff).mpr hmemArgs
  have hndC : (mapKeys (canonArgs (bindingArguments b (some t)))).Nodup := by
    have hp := (canonArgs_perm (bindingArguments b (some t))).map Prod.fst
    exact (hp.nodup_iff).mpr hndAll
  exact ⟨hlook, rfl, lookupArg_of_mem _ k v hndC hmemC⟩

theorem c10_filter_overwrites_reserved_witness :
    lookupArg (bindingArguments broker0 (some triggerF)) "x-match" =
      some "any" ∧
    (newBinding broker0 (some triggerF)).spec.args =
      some (canonArgs (bindingArguments broker0 (some triggerF))) ∧
    lookupArg (canonArgs (bindingArguments broker0 (some triggerF)))
      "x-match" = some "any" :=
  c10_filter_overwrites_reserved broker0 triggerF
    { attributes := some [("x-match", "any")] } [("x-match", "any")]
    "x-match" "any" rfl rfl (by decide) (by decide) (Or.inl rfl)

/-! ### C4 -/

def emptyBrokerStatus : BrokerStatusRec :=
  { exchangeCond := none, dlxCond := none, deadLetterSinkCond := none
    secretCond := none, ingressCond := none, addressableCond := none
    address := none }

/-- C4: a Broker whose backing-config kind is not RabbitmqCluster is
marked failed immediately (reason ReconcileFailure), the run returns nil
and performs no topology step and no write; the Trigger engine does the
same for a Trigger whose Broker is not of the operator kind. -/
theorem c4_unsupported_configuration :
    (∀ (env : BrokerEnv) (b : Broker) (st : BrokerStatusRec),
        env.argsFetch = none → isUsingOperator (some b) = false →
        brokerReconcileKind env b st =
          { status := markExchangeFailed st "ReconcileFailure", rerr := none
            trace := [], writes := [] }) ∧
    (∀ (env : TriggerEnv) (t : Trigger) (broker : Broker),
        env.brokerLookup = Lookup.found broker →
        lookupArgD broker.annots brokerClassKey = env.brokerClass →
        brokerIsReady broker = true →
        lookupArg t.annots depAnnotKey = none →
        isUsingOperator (some broker) = false →
        (triggerReconcileKind env t).rerr = none ∧
        (triggerReconcileKind env t).trace = [] ∧
        (triggerReconcileKind env t).writes = [] ∧
        (triggerReconcileKind env t).status.dependencyCond =
          some ⟨CStatus.isFalse, "ReconcileFailure"⟩) := by
  constructor
  · intro env b st hargs hop
    unfold brokerReconcileKind
    rw [hargs]
    simp [hop]
  · intro env t broker hb hclass hready hann hop
    refine ⟨?_, ?_, ?_, ?_⟩ <;>
      · unfold triggerReconcileKind
        rw [hb]
        simp [hclass, hready, hann, hop, checkDependencyAnnotation,
          getDependencyStatus, markDependencySucceeded, markDependencyFailed]

/-- Broker of the standalone (Secret) kind, owned by the managed broker
class. -/
def brokerSecretKind : Broker :=
  { broker0 with
    spec := { broker0.spec with
              config := some { kind := "Secret", name := "rabbit-secret" } } }

def envBrokerSecret : BrokerEnv :=
  { ingressImage := "ingress-image", dispatcherImage := "dispatcher-image"
    argsFetch := none
    exchStore := ⟨Lookup.notFound, none⟩, dlxStore := ⟨Lookup.notFound, none⟩
    queueStore := ⟨Lookup.notFound, none⟩
    bindingStore := ⟨Lookup.notFound, none⟩
    secretStore := ⟨Lookup.notFound, none⟩
    ingressDeployStore := ⟨Lookup.notFound, none⟩
    serviceStore := ⟨Lookup.notFound, none⟩
    endpointsRes := Lookup.notFound
    dlsResolve := Except.error "unused"
    dispStore := ⟨Lookup.notFound, none⟩ }

def envTrigSecret : TriggerEnv :=
  { brokerClass := "RabbitMQBroker", dispatcherImage := "dispatcher-image"
    brokerLookup := Lookup.found brokerSecretKind
    dep := DepAnnVal.tracked (DepFetch.fetched ⟨0, 0, none⟩)
    dlxStore := ⟨Lookup.notFound, none⟩, dlqStore := ⟨Lookup.notFound, none⟩
    dlqBindingStore := ⟨Lookup.notFound, none⟩
    dlsResolve := Except.error "unused"
    secretFetch := Except.error "unused"
    dlqDispStore := ⟨Lookup.notFound, none⟩
    queueStore := ⟨Lookup.notFound, none⟩
    bindingStore := ⟨Lookup.notFound, none⟩
    subResolve := Except.error "unused"
    dispStore := ⟨Lookup.notFound, none⟩ }

theorem c4_unsupported_configuration_witness :
    brokerReconcileKind envBrokerSecret brokerSecretKind emptyBrokerStatus =
      { status := markExchangeFailed emptyBrokerStatus "ReconcileFailure"
        rerr := none, trace := [], writes := [] } ∧
    (triggerReconcileKind envTrigSecret trigger0).rerr = none ∧
    (triggerReconcileKind envTrigSecret trigger0).trace = [] ∧
    (triggerReconcileKind envTrigSecret trigger0).writes = [] ∧
    (triggerReconcileKind envTrigSecret trigger0).status.dependencyCond =
      some ⟨CStatus.isFalse, "ReconcileFailure"⟩ :=
  ⟨c4_unsupported_configuration.1 envBrokerSecret brokerSecretKind
      emptyBrokerStatus rfl (by decide),
   c4_unsupported_configuration.2 envTrigSecret trigger0 brokerSecretKind
      rfl (by decide) (by decide) rfl (by decide)⟩

/-! ### C8 -/

/-- C8: a dependency whose metadata generation differs from its status
observedGeneration marks the Dependency slot Unknown (reason
GenerationNotEqual), propagateDependencyReadiness returns nil, and the
pipeline soft-stops with no later step and no write. -/
theorem c8_generation_mismatch_soft_stop :
    (∀ (st : TriggerStatus) (d : DepSource),
        d.generation ≠ d.observedGeneration →
        propagateDependencyReadiness st (DepFetch.fetched d) =
          (markDependencyUnknown st "GenerationNotEqual", none)) ∧
    (∀ (env : TriggerEnv) (t : Trigger) (broker : Broker) (d : DepSource)
        (a : String),
        env.brokerLookup = Lookup.found broker →
        lookupArgD broker.annots brokerClassKey = env.brokerClass →
        brokerIsReady broker = true →
        lookupArg t.annots depAnnotKey = some a →
        env.dep = DepAnnVal.tracked (DepFetch.fetched d) →
        d.generation ≠ d.observedGeneration →
        (triggerReconcileKind env t).rerr = none ∧
        (triggerReconcileKind env t).trace = [] ∧
        (triggerReconcileKind env t).writes = [] ∧
        (triggerReconcileKind env t).status.dependencyCond =
          some ⟨CStatus.unknown, "GenerationNotEqual"⟩) := by
  constructor
  · intro st d hgen
    unfold propagateDependencyReadiness
    simp [hgen]
  · intro env t broker d a hb hclass hready hann hdep hgen
    refine ⟨?_, ?_, ?_, ?_⟩ <;>
      · unfold triggerReconcileKind
        rw [hb]
        simp [hclass, hready, hann, hdep, hgen, checkDependencyAnnotation,
          propagateDependencyReadiness, getDependencyStatus,
          markDependencyUnknown]

/-- Trigger carrying a dependency annotation. -/
def triggerDep : Trigger :=
  { trigger0 with annots := [(depAnnotKey, "ping-source")] }

def envDepMismatch : TriggerEnv :=
  { envTrigSecret with
    brokerLookup := Lookup.found broker0
    dep := DepAnnVal.tracked (DepFetch.fetched
      { generation := 2, observedGeneration := 1
        readyCond := some ⟨CStatus.isTrue, ""⟩ }) }

theorem c8_generation_mismatch_soft_stop_witness :
    propagateDependencyReadiness emptyTriggerStatus
      (DepFetch.fetched
        { generation := 2, observedGeneration := 1
          readyCond := some ⟨CStatus.isTrue, ""⟩ }) =
      (markDependencyUnknown emptyTriggerStatus "GenerationNotEqual", none) ∧
    (triggerReconcileKind envDepMismatch triggerDep).rerr = none ∧
    (triggerReconcileKind envDepMismatch triggerDep).trace = [] ∧
    (triggerReconcileKind envDepMismatch triggerDep).writes = [] ∧
    (triggerReconcileKind envDepMismatch triggerDep).status.dependencyCond =
      some ⟨CStatus.unknown, "GenerationNotEqual"⟩ :=
  ⟨c8_generation_mismatch_soft_stop.1 emptyTriggerStatus _ (by decide),
   c8_generation_mismatch_soft_stop.2 envDepMismatch triggerDep broker0 _
     "ping-source" rfl (by decide) (by decide) rfl rfl (by decide)⟩

/-! ### C7 -/

def allCondsSet (st : TriggerStatus) : Bool :=
  st.brokerCond.isSome && st.dependencyCond.isSome &&
  st.subscribedCond.isSome && st.subscriberResolvedCond.isSome &&
  st.deadLetterSinkCond.isSome

theorem initializeConditions_of_allSet (st : TriggerStatus)
    (h : allCondsSet st = true) : initializeConditions st = st := by
  obtain ⟨bc, dc, sc, src, dlc, og, su, du⟩ := st
  cases bc <;> cases dc <;> cases sc <;> cases src <;> cases dlc <;>
    simp_all [allCondsSet, initializeConditions]

/-- C7 amended: a Trigger whose Broker carries a different broker-class
annotation is ignored with a nil return, no step and no write, and no
condition marking beyond the unconditional condition initialization; when
the condition slots are already initialized the status is returned
untouched. -/
theorem c7_amended_wrong_class_ignored :
    ∀ (env : TriggerEnv) (t : Trigger) (broker : Broker),
      env.brokerLookup = Lookup.found broker →
      lookupArgD broker.annots brokerClassKey ≠ env.brokerClass →
      triggerReconcileKind env t =
        { status := initializeConditions t.status, rerr := none
          trace := [], writes := [] } ∧
      (allCondsSet t.status = true →
        (triggerReconcileKind env t).status = t.status) := by
  intro env t broker hb hclass
  have hrun : triggerReconcileKind env t =
      { status := initializeConditions t.status, rerr := none
        trace := [], writes := [] } := by
    unfold triggerReconcileKind
    rw [hb]
    simp [hclass]
  refine ⟨hrun, fun hall => ?_⟩
  rw [hrun]
  simpa using initializeConditions_of_allSet t.status hall

/-- Broker owned by a different broker class. -/
def brokerOtherClass : Broker :=
  { broker0 with annots := [(brokerClassKey, "MTChannelBasedBroker")] }

def envWrongClass : TriggerEnv :=
  { envTrigSecret with brokerLookup := Lookup.found brokerOtherClass }

/-- C7 counterexample: for a fresh Trigger (no condition yet recorded) the
wrong-class run returns nil and runs no step, but it does write condition
slots: the unconditional initialization sets them to Unknown, so the
condition set is not left untouched. -/
theorem c7_counterexample_conditions_written :
    (triggerReconcileKind envWrongClass trigger0).rerr = none ∧
    (triggerReconcileKind envWrongClass trigger0).trace = [] ∧
    (triggerReconcileKind envWrongClass trigger0).status.dependencyCond =
      some ⟨CStatus.unknown, ""⟩ ∧
    trigger0.status.dependencyCond = none := by
  decide

theorem c7_amended_wrong_class_ignored_witness :
    triggerReconcileKind envWrongClass
      { trigger0 with
        status := initializeConditions emptyTriggerStatus } =
      { status := initializeConditions
          (initializeConditions emptyTriggerStatus)
        rerr := none, trace := [], writes := [] } ∧
    (triggerReconcileKind envWrongClass
      { trigger0 with
        status := initializeConditions emptyTriggerStatus }).status =
      initializeConditions emptyTriggerStatus :=
  ⟨(c7_amended_wrong_class_ignored envWrongClass _ brokerOtherClass rfl
      (by decide)).1,
   (c7_amended_wrong_class_ignored envWrongClass _ brokerOtherClass rfl
      (by decide)).2 (by decide)⟩

/-! ### Write-shape lemmas (C5) -/

theorem triggerReconcileExchange_no_delete (s : StoreView Exchange)
    (b : Broker) (t : Trigger) :
    ∀ w ∈ (triggerReconcileExchange s b t).2, w.isDelete = false := by
  intro w hw
  generalize hres : triggerReconcileExchange s b t = p at hw
  unfold triggerReconcileExchange at hres
  split at hres
  all_goals try split at hres
  all_goals try split at hres
  all_goals subst hres
  all_goals try simp only [apply_ite Prod.snd] at hw
  all_goals try split at hw
  all_goals simp_all [WriteOp.isDelete]

theorem triggerReconcileQueue_no_delete (s : StoreView Queue)
    (b : Broker) (t : Trigger) :
    ∀ w ∈ (triggerReconcileQueue s b t).2, w.isDelete = false := by
  intro w hw
  generalize hres : triggerReconcileQueue s b t = p at hw
  unfold triggerReconcileQueue at hres
  split at hres
  all_goals try split at hres
  all_goals try split at hres
  all_goals subst hres
  all_goals try simp only [apply_ite Prod.snd] at hw
  all_goals try split at hw
  all_goals simp_all [WriteOp.isDelete]

theorem triggerReconcileDLQ_no_delete (s : StoreView Queue)
    (b : Broker) (t : Trigger) :
    ∀ w ∈ (triggerReconcileDLQ s b t).2, w.isDelete = false := by
  intro w hw
  generalize hres : triggerReconcileDLQ s b t = p at hw
  unfold triggerReconcileDLQ at hres
  split at hres
  all_goals try split at hres
  all_goals try split at hres
  all_goals subst hres
  all_goals try simp only [apply_ite Prod.snd] at hw
  all_goals try split at hw
  all_goals simp_all [WriteOp.isDelete]

theorem triggerReconcileBinding_no_delete (s : StoreView Binding)
    (b : Broker) (t : Trigger) :
    ∀ w ∈ (triggerReconcileBinding s b t).2, w.isDelete = false := by
  intro w hw
  generalize hres : triggerReconcileBinding s b t = p at hw
  unfold triggerReconcileBinding at hres
  split at hres
  all_goals try split at hres
  all_goals try split at hres
  all_goals subst hres
  all_goals try simp only [apply_ite Prod.snd] at hw
  all_goals try split at hw
  all_goals simp_all [WriteOp.isDelete]

theorem triggerReconcileDLQBinding_no_delete (s : StoreView Binding)
    (b : Broker) (t : Trigger) :
    ∀ w ∈ (triggerReconcileDLQBinding s b t).2, w.isDelete = false := by
  intro w hw
  generalize hres : triggerReconcileDLQBinding s b t = p at hw
  unfold triggerReconcileDLQBinding at hres
  split at hres
  all_goals try split at hres
  all_goals try split at hres
  all_goals subst hres
  all_goals try simp only [apply_ite Prod.snd] at hw
  all_goals try split at hw
  all_goals simp_all [WriteOp.isDelete]

theorem triggerReconcileDeployment_no_delete (s : StoreView Deployment)
    (d : Deployment) :
    ∀ w ∈ (triggerReconcileDeployment s d).2, w.isDelete = false := by
  intro w hw
  generalize hres : triggerReconcileDeployment s d = p at hw
  unfold triggerReconcileDeployment at hres
  split at hres
  all_goals try split at hres
  all_goals try split at hres
  all_goals subst hres
  all_goals try simp only [apply_ite Prod.snd] at hw
  all_goals try split at hw
  all_goals simp_all [WriteOp.isDelete]

theorem triggerReconcileDispatcherDeployment_no_delete (env : TriggerEnv)
    (t : Trigger) (sub : String) (delivery : Option Delivery) :
    ∀ w ∈ (triggerReconcileDispatcherDeployment env t sub delivery).2,
      w.isDelete = false := by
  intro w hw
  generalize hres : triggerReconcileDispatcherDeployment env t sub delivery = p
    at hw
  unfold triggerReconcileDispatcherDeployment at hres
  split at hres
  · subst hres; simp at hw
  · split at hres
    · subst hres; simp at hw
    · subst hres; simp at hw
    · rw [← hres] at hw
      exact triggerReconcileDeployment_no_delete _ _ w hw

theorem triggerReconcileDLXDispatcherDeployment_no_delete (env : TriggerEnv)
    (t : Trigger) (sub : String) :
    ∀ w ∈ (triggerReconcileDLXDispatcherDeployment env t sub).2,
      w.isDelete = false := by
  intro w hw
  generalize hres : triggerReconcileDLXDispatcherDeployment env t sub = p at hw
  unfold triggerReconcileDLXDispatcherDeployment at hres
  split at hres
  · subst hres; simp at hw
  · split at hres
    · subst hres; simp at hw
    · subst hres; simp at hw
    · rw [← hres] at hw
      exact triggerReconcileDeployment_no_delete _ _ w hw

theorem brokerReconcileExchange_no_delete (s : StoreView Exchange)
    (args : ExchangeArgs) :
    ∀ w ∈ (brokerReconcileExchange s args).2, w.isDelete = false := by
  intro w hw
  generalize hres : brokerReconcileExchange s args = p at hw
  unfold brokerReconcileExchange at hres
  split at hres
  all_goals try split at hres
  all_goals try split at hres
  all_goals subst hres
  all_goals try simp only [apply_ite Prod.snd] at hw
  all_goals try split at hw
  all_goals simp_all [WriteOp.isDelete]

theorem brokerReconcileQueue_no_delete (s : StoreView Queue) (b : Broker) :
    ∀ w ∈ (brokerReconcileQueue s b).2, w.isDelete = false := by
  intro w hw
  generalize hres : brokerReconcileQueue s b = p at hw
  unfold brokerReconcileQueue at hres
  split at hres
  all_goals try split at hres
  all_goals try split at hres
  all_goals subst hres
  all_goals try simp only [apply_ite Prod.snd] at hw
  all_goals try split at hw
  all_goals simp_all [WriteOp.isDelete]

theorem brokerReconcileBinding_no_delete (s : StoreView Binding) (b : Broker) :
    ∀ w ∈ (brokerReconcileBinding s b).2, w.isDelete = false := by
  intro w hw
  generalize hres : brokerReconcileBinding s b = p at hw
  unfold brokerReconcileBinding at hres
  split at hres
  all_goals try split at hres
  all_goals try split at hres
  all_goals subst hres
  all_goals try simp only [apply_ite Prod.snd] at hw
  all_goals try split at hw
  all_goals simp_all [WriteOp.isDelete]

theorem brokerReconcileSecret_no_delete (s : StoreView Secret) (sc : Secret) :
    ∀ w ∈ (brokerReconcileSecret s sc).2, w.isDelete = false := by
  intro w hw
  generalize hres : brokerReconcileSecret s sc = p at hw
  unfold brokerReconcileSecret at hres
  split at hres
  all_goals try split at hres
  all_goals try split at hres
  all_goals subst hres
  all_goals try simp only [apply_ite Prod.snd] at hw
  all_goals try split at hw
  all_goals simp_all [WriteOp.isDelete]

theorem brokerReconcileDeployment_no_delete (s : StoreView Deployment)
    (d : Deployment) :
    ∀ w ∈ (brokerReconcileDeployment s d).2, w.isDelete = false := by
  intro w hw
  generalize hres : brokerReconcileDeployment s d = p at hw
  unfold brokerReconcileDeployment at hres
  split at hres
  all_goals try split at hres
  all_goals try split at hres
  all_goals subst hres
  all_goals try simp only [apply_ite Prod.snd] at hw
  all_goals try split at hw
  all_goals simp_all [WriteOp.isDelete]

theorem brokerReconcileService_no_delete (s : StoreView Service)
    (eps : Lookup Endpoints) (svc : Service) :
    ∀ w ∈ (brokerReconcileService s eps svc).2, w.isDelete = false := by
  intro w hw
  generalize hres : brokerReconcileService s eps svc = p at hw
  unfold brokerReconcileService at hres
  split at hres
  all_goals try split at hres
  all_goals try split at hres
  all_goals try split at hres
  all_goals subst hres
  all_goals try simp only [apply_ite Prod.snd] at hw
  all_goals try split at hw
  all_goals simp_all [WriteOp.isDelete]

def writesOf : SecRes → List WriteOp
  | .halt _ _ _ ws => ws
  | .next _ _ ws => ws

theorem no_delete_append {l1 l2 : List WriteOp}
    (h1 : ∀ w ∈ l1, w.isDelete = false) (h2 : ∀ w ∈ l2, w.isDelete = false) :
    ∀ w ∈ l1 ++ l2, w.isDelete = false := by
  intro w hw
  rcases List.mem_append.mp hw with h | h
  · exact h1 w h
  · exact h2 w h

theorem dlsSection_no_delete (env : TriggerEnv) (b : Broker) (t : Trigger)
    (st : TriggerStatus) :
    ∀ w ∈ writesOf (dlsSection env b t st), w.isDelete = false := by
  intro w hw
  have hA := triggerReconcileExchange_no_delete env.dlxStore b t
  have hB := triggerReconcileDLQ_no_delete env.dlqStore b t
  have hC := triggerReconcileDLQBinding_no_delete env.dlqBindingStore b t
  unfold dlsSection at hw
  cases hdel : t.spec.delivery with
  | none =>
    simp only [hdel, writesOf] at hw
    simp at hw
  | some delivery =>
    simp only [hdel] at hw
    cases hdls : delivery.deadLetterSink with
    | none =>
      simp only [hdls, writesOf] at hw
      simp at hw
    | some dest =>
      simp only [hdls] at hw
      rcases hx : triggerReconcileExchange env.dlxStore b t with ⟨dlxRes, ws1⟩
      rw [hx] at hA
      simp only [hx] at hw
      cases dlxRes with
      | error e =>
        simp only [writesOf] at hw
        exact hA w hw
      | ok dlx =>
        by_cases hrdy : isReady dlx.conditions = true
        · simp only [hrdy, Bool.not_true, Bool.false_eq_true, if_false] at hw
          rcases hq : triggerReconcileDLQ env.dlqStore b t with ⟨dlqRes, ws2⟩
          rw [hq] at hB
          simp only [hq] at hw
          cases dlqRes with
          | error e =>
            simp only [writesOf] at hw
            exact no_delete_append hA hB w hw
          | ok dlq =>
            by_cases hrdy2 : isReady dlq.conditions = true
            · simp only [hrdy2, Bool.not_true, Bool.false_eq_true, if_false]
                at hw
              rcases hqb : triggerReconcileDLQBinding env.dlqBindingStore b t
                with ⟨dlqbRes, ws3⟩
              rw [hqb] at hC
              simp only [hqb] at hw
              cases dlqbRes with
              | error e =>
                simp only [writesOf] at hw
                exact no_delete_append (no_delete_append hA hB) hC w hw
              | ok dlqb =>
                by_cases hrdy3 : isReady dlqb.conditions = true
                · simp only [hrdy3, Bool.not_true, Bool.false_eq_true,
                    if_false] at hw
                  cases hr : env.dlsResolve with
                  | error e =>
                    simp only [hr, writesOf] at hw
                    exact no_delete_append (no_delete_append hA hB) hC w hw
                  | ok uri =>
                    simp only [hr] at hw
                    have hD := triggerReconcileDLXDispatcherDeployment_no_delete
                      env t uri
                    rcases hd : triggerReconcileDLXDispatcherDeployment env t uri
                      with ⟨dRes, ws4⟩
                    rw [hd] at hD
                    simp only [hd] at hw
                    cases dRes with
                    | error e =>
                      simp only [writesOf] at hw
                      exact no_delete_append
                        (no_delete_append (no_delete_append hA hB) hC) hD w hw
                    | ok dd =>
                      simp only [writesOf] at hw
                      exact no_delete_append
                        (no_delete_append (no_delete_append hA hB) hC) hD w hw
                · have hf : isReady dlqb.conditions = false := by
                    revert hrdy3; cases isReady dlqb.conditions <;> simp
                  simp only [hf, Bool.not_false, if_true, writesOf] at hw
                  exact no_delete_append (no_delete_append hA hB) hC w hw
            · have hf : isReady dlq.conditions = false := by
                revert hrdy2; cases isReady dlq.conditions <;> simp
              simp only [hf, Bool.not_false, if_true, writesOf] at hw
              exact no_delete_append hA hB w hw
        · have hf : isReady dlx.conditions = false := by
            revert hrdy; cases isReady dlx.conditions <;> simp
          simp only [hf, Bool.not_false, if_true, writesOf] at hw
          exact hA w hw

theorem queueBindingSection_no_delete (env : TriggerEnv) (b : Broker)
    (t : Trigger) (st : TriggerStatus) :
    ∀ w ∈ writesOf (queueBindingSection env b t st), w.isDelete = false := by
  intro w hw
  have hA := triggerReconcileQueue_no_delete env.queueStore b t
  have hB := triggerReconcileBinding_no_delete env.bindingStore b t
  unfold queueBindingSection at hw
  rcases hx : triggerReconcileQueue env.queueStore b t with ⟨qRes, ws1⟩
  rw [hx] at hA
  simp only [hx] at hw
  cases qRes with
  | error e =>
    simp only [writesOf] at hw
    exact hA w hw
  | ok q =>
    by_cases hrdy : isReady q.conditions = true
    · simp only [hrdy, Bool.not_true, Bool.false_eq_true, if_false] at hw
      rcases hb2 : triggerReconcileBinding env.bindingStore b t with ⟨bRes, ws2⟩
      rw [hb2] at hB
      simp only [hb2] at hw
      cases bRes with
      | error e =>
        simp only [writesOf] at hw
        exact no_delete_append hA hB w hw
      | ok bd =>
        by_cases hrdy2 : isReady bd.conditions = true
        · simp only [hrdy2, Bool.not_true, Bool.false_eq_true, if_false,
            writesOf] at hw
          exact no_delete_append hA hB w hw
        · have hf : isReady bd.conditions = false := by
            revert hrdy2; cases isReady bd.conditions <;> simp
          simp only [hf, Bool.not_false, if_true, writesOf] at hw
          exact no_delete_append hA hB w hw
    · have hf : isReady q.conditions = false := by
        revert hrdy; cases isReady q.conditions <;> simp
      simp only [hf, Bool.not_false, if_true, writesOf] at hw
      exact hA w hw

theorem subscriberSection_no_delete (env : TriggerEnv) (b : Broker)
    (t : Trigger) (st : TriggerStatus) :
    ∀ w ∈ writesOf (subscriberSection env b t st), w.isDelete = false := by
  intro w hw
  unfold subscriberSection at hw
  cases hr : env.subResolve with
  | error e =>
    simp only [hr, writesOf] at hw
    simp at hw
  | ok uri =>
    simp only [hr] at hw
    have hD := triggerReconcileDispatcherDeployment_no_delete env t uri
      (match t.spec.delivery with
       | some d => some d
       | none => b.spec.delivery)
    rcases hd : triggerReconcileDispatcherDeployment env t uri
        (match t.spec.delivery with
         | some d => some d
         | none => b.spec.delivery) with ⟨dRes, ws⟩
    rw [hd] at hD
    simp only [hd] at hw
    cases dRes with
    | error e =>
      simp only [writesOf] at hw
      exact hD w hw
    | ok dd =>
      simp only [writesOf] at hw
      exact hD w hw

theorem triggerReconcileKind_no_delete (env : TriggerEnv) (t : Trigger) :
    ∀ w ∈ (triggerReconcileKind env t).writes, w.isDelete = false := by
  intro w hw
  unfold triggerReconcileKind at hw
  cases hb : env.brokerLookup with
  | notFound => simp only [hb] at hw; simp at hw
  | failed e => simp only [hb] at hw; simp at hw
  | found broker =>
    simp only [hb] at hw
    by_cases hclass :
        lookupArgD broker.annots brokerClassKey = env.brokerClass
    · rw [if_neg (by simpa using hclass)] at hw
      by_cases hready : brokerIsReady broker = true
      · simp only [hready, Bool.not_true, Bool.false_eq_true, if_false] at hw
        rcases hdep : checkDependencyAnnotation env.dep t
            (propagateBrokerCondition
              { initializeConditions t.status with
                observedGeneration := some t.generation } broker.topLevel)
          with ⟨st3, eo⟩
        simp only [hdep] at hw
        cases eo with
        | some e => simp at hw
        | none =>
          dsimp only at hw
          by_cases hds : getDependencyStatus st3 = CStatus.isTrue
          · rw [if_neg (by simpa using hds)] at hw
            by_cases hop : isUsingOperator (some broker) = true
            · simp only [hop, Bool.not_true, Bool.false_eq_true, if_false]
                at hw
              have hD := dlsSection_no_delete env broker t st3
              rcases hd : dlsSection env broker t st3 with
                ⟨st4, e4, tr4, ws4⟩ | ⟨st4, tr4, ws4⟩
              · rw [hd] at hD
                simp only [hd, writesOf] at hw hD
                exact hD w hw
              · rw [hd] at hD
                simp only [hd, writesOf] at hw hD
                have hQ := queueBindingSection_no_delete env broker t st4
                rcases hq : queueBindingSection env broker t st4 with
                  ⟨st5, e5, tr5, ws5⟩ | ⟨st5, tr5, ws5⟩
                · rw [hq] at hQ
                  simp only [hq, writesOf] at hw hQ
                  exact no_delete_append hD hQ w hw
                · rw [hq] at hQ
                  simp only [hq, writesOf] at hw hQ
                  have hS := subscriberSection_no_delete env broker t st5
                  rcases hs : subscriberSection env broker t st5 with
                    ⟨st6, e6, tr6, ws6⟩ | ⟨st6, tr6, ws6⟩
                  · rw [hs] at hS
                    simp only [hs, writesOf] at hw hS
                    exact no_delete_append (no_delete_append hD hQ) hS w hw
                  · rw [hs] at hS
                    simp only [hs, writesOf] at hw hS
                    exact no_delete_append (no_delete_append hD hQ) hS w hw
            · have hopf : isUsingOperator (some broker) = false := by
                revert hop; cases isUsingOperator (some broker) <;> simp
              simp only [hopf, Bool.not_false, if_true] at hw
              simp at hw
          · rw [if_pos (by simpa using hds)] at hw
            simp at hw
      · have hf : brokerIsReady broker = false := by
          revert hready; cases brokerIsReady broker <;> simp
        simp only [hf, Bool.not_false, if_true] at hw
        simp at hw
    · rw [if_pos (by simpa using hclass)] at hw
      simp at hw

/-- Whether the Broker has no dead-letter sink configured. -/
def brokerDLSAbsent (b : Broker) : Bool :=
  match b.spec.delivery with
  | some d => d.deadLetterSink.isNone
  | none => true

theorem brokerDispatcher_delete_shape (store : StoreView Deployment)
    (img : String) (b : Broker) (addr : Option String) (sub : Option String)
    (kind oname : String) :
    WriteOp.deleteOp kind oname ∈
      (brokerReconcileDLXDispatcherDeployment store img b addr sub).2 →
    kind = "deployment" ∧ oname = brokerDispatcherName b.name ∧ sub = none := by
  intro hmem
  cases sub with
  | some u =>
    exfalso
    unfold brokerReconcileDLXDispatcherDeployment at hmem
    have := brokerReconcileDeployment_no_delete store _
      (WriteOp.deleteOp kind oname) hmem
    simp [WriteOp.isDelete] at this
  | none =>
    unfold brokerReconcileDLXDispatcherDeployment at hmem
    cases hcur : store.current with
    | notFound => simp [hcur] at hmem
    | failed e => simp [hcur] at hmem
    | found d =>
      simp only [hcur] at hmem
      cases hwe : store.writeErr with
      | some e =>
        simp only [hwe, List.mem_singleton] at hmem
        injection hmem with h1 h2
        exact ⟨h1, h2, rfl⟩
      | none =>
        simp only [hwe, List.mem_singleton] at hmem
        injection hmem with h1 h2
        exact ⟨h1, h2, rfl⟩

theorem commonIngress_delete_shape (env : BrokerEnv) (s : Secret) (b : Broker)
    (st : BrokerStatusRec) (kind oname : String) :
    WriteOp.deleteOp kind oname ∈
      (reconcileCommonIngressResources env s b st).writes →
    kind = "deployment" ∧ oname = brokerDispatcherName b.name ∧
      brokerDLSAbsent b = true := by
  intro hmem
  have hno : (WriteOp.deleteOp kind oname).isDelete = true := rfl
  have hS := brokerReconcileSecret_no_delete env.secretStore s
  have hI := brokerReconcileDeployment_no_delete env.ingressDeployStore
    (makeIngressDeployment b env.ingressImage)
  have hV := brokerReconcileService_no_delete env.serviceStore env.endpointsRes
    (makeIngressService b)
  unfold reconcileCommonIngressResources at hmem
  rcases h1 : brokerReconcileSecret env.secretStore s with ⟨r1, ws1⟩
  rw [h1] at hS
  simp only [h1] at hmem
  cases r1 with
  | error e =>
    exfalso
    have := hS _ hmem
    rw [hno] at this
    exact Bool.true_eq_false.mp this
  | ok u =>
    rcases h2 : brokerReconcileDeployment env.ingressDeployStore
        (makeIngressDeployment b env.ingressImage) with ⟨r2, ws2⟩
    rw [h2] at hI
    simp only [h2] at hmem
    cases r2 with
    | error e =>
      exfalso
      rcases List.mem_append.mp hmem with h | h
      · have := hS _ h
        rw [hno] at this
        exact Bool.true_eq_false.mp this
      · have := hI _ h
        rw [hno] at this
        exact Bool.true_eq_false.mp this
    | ok u2 =>
      rcases h3 : brokerReconcileService env.serviceStore env.endpointsRes
          (makeIngressService b) with ⟨r3, ws3⟩
      rw [h3] at hV
      simp only [h3] at hmem
      have hPre : ∀ w ∈ ws1 ++ ws2 ++ ws3, WriteOp.isDelete w = false :=
        no_delete_append (no_delete_append hS hI) hV
      cases r3 with
      | error e =>
        exfalso
        rcases List.mem_append.mp hmem with h | h
        · have := no_delete_append hS hI _ h
          rw [hno] at this
          exact Bool.true_eq_false.mp this
        · have := hV _ h
          rw [hno] at this
          exact Bool.true_eq_false.mp this
      | ok eps =>
        dsimp only at hmem
        cases hdel : b.spec.delivery with
        | none =>
          simp only [hdel] at hmem
          rcases h4 : brokerReconcileDLXDispatcherDeployment env.dispStore
              env.dispatcherImage b
              (setAddress (propagateIngressAvailability (markSecretReady st)
                eps) (some (serviceHostname eps.name eps.ns))).address none
            with ⟨r4, ws4⟩
          have hShape := brokerDispatcher_delete_shape env.dispStore
            env.dispatcherImage b
            (setAddress (propagateIngressAvailability (markSecretReady st)
              eps) (some (serviceHostname eps.name eps.ns))).address none
            kind oname
          rw [h4] at hShape
          simp only [h4] at hmem
          cases r4 with
          | error e =>
            rcases List.mem_append.mp hmem with h | h
            · exfalso
              have := hPre _ h
              rw [hno] at this
              exact Bool.true_eq_false.mp this
            · have := hShape h
              exact ⟨this.1, this.2.1, by simp [brokerDLSAbsent, hdel]⟩
          | ok u4 =>
            rcases List.mem_append.mp hmem with h | h
            · exfalso
              have := hPre _ h
              rw [hno] at this
              exact Bool.true_eq_false.mp this
            · have := hShape h
              exact ⟨this.1, this.2.1, by simp [brokerDLSAbsent, hdel]⟩
        | some delivery =>
          simp only [hdel] at hmem
          cases hdls : delivery.deadLetterSink with
          | none =>
            simp only [hdls] at hmem
            rcases h4 : brokerReconcileDLXDispatcherDeployment env.dispStore
                env.dispatcherImage b
                (setAddress (propagateIngressAvailability (markSecretReady st)
                  eps) (some (serviceHostname eps.name eps.ns))).address none
              with ⟨r4, ws4⟩
            have hShape := brokerDispatcher_delete_shape env.dispStore
              env.dispatcherImage b
              (setAddress (propagateIngressAvailability (markSecretReady st)
                eps) (some (serviceHostname eps.name eps.ns))).address none
              kind oname
            rw [h4] at hShape
            simp only [h4] at hmem
            cases r4 with
            | error e =>
              rcases List.mem_append.mp hmem with h | h
              · exfalso
                have := hPre _ h
                rw [hno] at this
                exact Bool.true_eq_false.mp this
              · have := hShape h
                exact ⟨this.1, this.2.1, by
                  simp [brokerDLSAbsent, hdel, hdls, Option.isNone]⟩
            | ok u4 =>
              rcases List.mem_append.mp hmem with h | h
              · exfalso
                have := hPre _ h
                rw [hno] at this
                exact Bool.true_eq_false.mp this
              · have := hShape h
                exact ⟨this.1, this.2.1, by
                  simp [brokerDLSAbsent, hdel, hdls, Option.isNone]⟩
          | some dest =>
            simp only [hdls] at hmem
            cases hres : env.dlsResolve with
            | error e =>
              exfalso
              simp only [hres] at hmem
              have := hPre _ hmem
              rw [hno] at this
              exact Bool.true_eq_false.mp this
            | ok uri =>
              simp only [hres] at hmem
              rcases h4 : brokerReconcileDLXDispatcherDeployment env.dispStore
                  env.dispatcherImage b
                  (setAddress (propagateIngressAvailability (markSecretReady st)
                    eps) (some (serviceHostname eps.name eps.ns))).address
                  (some uri)
                with ⟨r4, ws4⟩
              have hShape := brokerDispatcher_delete_shape env.dispStore
                env.dispatcherImage b
                (setAddress (propagateIngressAvailability (markSecretReady st)
                  eps) (some (serviceHostname eps.name eps.ns))).address
                (some uri) kind oname
              rw [h4] at hShape
              simp only [h4] at hmem
              cases r4 with
              | error e =>
                rcases List.mem_append.mp hmem with h | h
                · exfalso
                  have := hPre _ h
                  rw [hno] at this
                  exact Bool.true_eq_false.mp this
                · exfalso
                  have := hShape h
                  exact Option.some_ne_none uri this.2.2
              | ok u4 =>
                rcases List.mem_append.mp hmem with h | h
                · exfalso
                  have := hPre _ h
                  rw [hno] at this
                  exact Bool.true_eq_false.mp this
                · exfalso
                  have := hShape h
                  exact Option.some_ne_none uri this.2.2

theorem reconcileUsingCRD_delete_shape (env : BrokerEnv) (b : Broker)
    (st : BrokerStatusRec) (kind oname : String) :
    WriteOp.deleteOp kind oname ∈ (reconcileUsingCRD env b st).writes →
    kind = "deployment" ∧ oname = brokerDispatcherName b.name ∧
      brokerDLSAbsent b = true := by
  intro hmem
  have hno : (WriteOp.deleteOp kind oname).isDelete = true := rfl
  have hE := brokerReconcileExchange_no_delete env.exchStore
    { broker := b, trigger := none, dlx := false }
  have hD := brokerReconcileExchange_no_delete env.dlxStore
    { broker := b, trigger := none, dlx := true }
  have hQ := brokerReconcileQueue_no_delete env.queueStore b
  have hB := brokerReconcileBinding_no_delete env.bindingStore b
  unfold reconcileUsingCRD at hmem
  rcases h1 : brokerReconcileExchange env.exchStore
      { broker := b, trigger := none, dlx := false } with ⟨r1, ws1⟩
  rw [h1] at hE
  simp only [h1] at hmem
  cases r1 with
  | error e =>
    exfalso
    have := hE _ hmem
    rw [hno] at this
    exact Bool.true_eq_false.mp this
  | ok exch =>
    by_cases hrdy : isReady exch.conditions = true
    · simp only [hrdy, Bool.not_true, Bool.false_eq_true, if_false] at hmem
      rcases h2 : brokerReconcileExchange env.dlxStore
          { broker := b, trigger := none, dlx := true } with ⟨r2, ws2⟩
      rw [h2] at hD
      simp only [h2] at hmem
      cases r2 with
      | error e =>
        exfalso
        have := no_delete_append hE hD _ hmem
        rw [hno] at this
        exact Bool.true_eq_false.mp this
      | ok dlx =>
        by_cases hrdy2 : isReady dlx.conditions = true
        · simp only [hrdy2, Bool.not_true, Bool.false_eq_true, if_false]
            at hmem
          rcases h3 : brokerReconcileQueue env.queueStore b with ⟨r3, ws3⟩
          rw [h3] at hQ
          simp only [h3] at hmem
          cases r3 with
          | error e =>
            exfalso
            have := no_delete_append (no_delete_append hE hD) hQ _ hmem
            rw [hno] at this
            exact Bool.true_eq_false.mp this
          | ok q =>
            by_cases hrdy3 : isReady q.conditions = true
            · simp only [hrdy3, Bool.not_true, Bool.false_eq_true, if_false]
                at hmem
              rcases h4 : brokerReconcileBinding env.bindingStore b
                with ⟨r4, ws4⟩
              rw [h4] at hB
              simp only [h4] at hmem
              cases r4 with
              | error e =>
                exfalso
                have := no_delete_append
                  (no_delete_append (no_delete_append hE hD) hQ) hB _ hmem
                rw [hno] at this
                exact Bool.true_eq_false.mp this
              | ok bd =>
                by_cases hrdy4 : isReady bd.conditions = true
                · simp only [hrdy4, Bool.not_true, Bool.false_eq_true,
                    if_false] at hmem
                  rcases List.mem_append.mp hmem with h | h
                  · exfalso
                    have := no_delete_append
                      (no_delete_append (no_delete_append hE hD) hQ) hB _ h
                    rw [hno] at this
                    exact Bool.true_eq_false.mp this
                  · exact commonIngress_delete_shape env (makeSecret b) b
                      (markDeadLetterSinkReady (markDLXReady
                        (markExchangeReady st))) kind oname h
                · have hf : isReady bd.conditions = false := by
                    revert hrdy4; cases isReady bd.conditions <;> simp
                  simp only [hf, Bool.not_false, if_true] at hmem
                  exfalso
                  have := no_delete_append
                    (no_delete_append (no_delete_append hE hD) hQ) hB _ hmem
                  rw [hno] at this
                  exact Bool.true_eq_false.mp this
            · have hf : isReady q.conditions = false := by
                revert hrdy3; cases isReady q.conditions <;> simp
              simp only [hf, Bool.not_false, if_true] at hmem
              exfalso
              have := no_delete_append (no_delete_append hE hD) hQ _ hmem
              rw [hno] at this
              exact Bool.true_eq_false.mp this
        · have hf : isReady dlx.conditions = false := by
            revert hrdy2; cases isReady dlx.conditions <;> simp
          simp only [hf, Bool.not_false, if_true] at hmem
          exfalso
          have := no_delete_append hE hD _ hmem
          rw [hno] at this
          exact Bool.true_eq_false.mp this
    · have hf : isReady exch.conditions = false := by
        revert hrdy; cases isReady exch.conditions <;> simp
      simp only [hf, Bool.not_false, if_true] at hmem
      exfalso
      have := hE _ hmem
      rw [hno] at this
      exact Bool.true_eq_false.mp this

theorem brokerReconcileKind_delete_shape (env : BrokerEnv) (b : Broker)
    (st : BrokerStatusRec) (kind oname : String) :
    WriteOp.deleteOp kind oname ∈ (brokerReconcileKind env b st).writes →
    kind = "deployment" ∧ oname = brokerDispatcherName b.name ∧
      brokerDLSAbsent b = true := by
  intro hmem
  unfold brokerReconcileKind at hmem
  cases hargs : env.argsFetch with
  | some e => simp [hargs] at hmem
  | none =>
    simp only [hargs] at hmem
    by_cases hop : isUsingOperator (some b) = true
    · simp only [hop, Bool.not_true, Bool.false_eq_true, if_false] at hmem
      exact reconcileUsingCRD_delete_shape env b st kind oname hmem
    · have hf : isUsingOperator (some b) = false := by
        revert hop; cases isUsingOperator (some b) <;> simp
      simp only [hf, Bool.not_false, if_true] at hmem
      simp at hmem

/-! ### C5 -/

def svcCur : Service :=
  { makeIngressService broker0 with
    spec := { (makeIngressService broker0).spec with clusterIP := "10.0.0.1" } }

def oldDispatcher : Deployment :=
  { name := brokerDispatcherName broker0.name, ns := "foobar"
    spec := { template := { image := "old-image", envPairs := [] } } }

/-- Broker environment in which every managed object is already in its
desired ready state, no dead-letter sink is configured, and a previously
created DLX dispatcher deployment still exists. -/
def envBrokerDel : BrokerEnv :=
  { ingressImage := "ingress-image", dispatcherImage := "dispatcher-image"
    argsFetch := none
    exchStore := ⟨Lookup.found (withReadyE (newExchange
      { broker := broker0, trigger := none, dlx := false })), none⟩
    dlxStore := ⟨Lookup.found (withReadyE (newExchange
      { broker := broker0, trigger := none, dlx := true })), none⟩
    queueStore := ⟨Lookup.found (withReadyQ (newQueue broker0 none)), none⟩
    bindingStore := ⟨Lookup.found (withReadyB (newBinding broker0 none)), none⟩
    secretStore := ⟨Lookup.found (makeSecret broker0), none⟩
    ingressDeployStore := ⟨Lookup.found
      (makeIngressDeployment broker0 "ingress-image"), none⟩
    serviceStore := ⟨Lookup.found svcCur, none⟩
    endpointsRes := Lookup.found ⟨ingressServiceName broker0, "foobar", true⟩
    dlsResolve := Except.error "unused"
    dispStore := ⟨Lookup.found oldDispatcher, none⟩ }

/-- C5 counterexample: a successful Broker ReconcileKind run (nil result)
deletes the leftover DLX dispatcher deployment when no dead-letter sink is
configured, so the reconciliation pipeline does issue a delete call. -/
theorem c5_counterexample_reconcile_deletes :
    (brokerReconcileKind envBrokerDel broker0 emptyBrokerStatus).rerr =
      none ∧
    WriteOp.deleteOp "deployment" (brokerDispatcherName broker0.name) ∈
      (brokerReconcileKind envBrokerDel broker0 emptyBrokerStatus).writes := by
  decide

/-- C5 amended: the Trigger pipeline never issues a delete; the Broker
pipeline issues no delete either, except that the DLX dispatcher
deployment is deleted when the Broker has no dead-letter sink configured
and a dispatcher deployment exists. -/
theorem c5_amended_delete_policy :
    (∀ (env : TriggerEnv) (t : Trigger) (w : WriteOp),
        w ∈ (triggerReconcileKind env t).writes → w.isDelete = false) ∧
    (∀ (env : BrokerEnv) (b : Broker) (st : BrokerStatusRec)
        (kind oname : String),
        WriteOp.deleteOp kind oname ∈ (brokerReconcileKind env b st).writes →
        kind = "deployment" ∧ oname = brokerDispatcherName b.name ∧
        brokerDLSAbsent b = true) :=
  ⟨fun env t w hw => triggerReconcileKind_no_delete env t w hw,
   fun env b st kind oname h =>
     brokerReconcileKind_delete_shape env b st kind oname h⟩

def envTrigCreate : TriggerEnv :=
  { envTrigSecret with brokerLookup := Lookup.found broker0 }

theorem c5_amended_delete_policy_witness :
    (WriteOp.createOp "queue" (createTriggerQueueName trigger0)).isDelete =
      false ∧
    ("deployment" = "deployment" ∧
      brokerDispatcherName broker0.name = brokerDispatcherName broker0.name ∧
      brokerDLSAbsent broker0 = true) :=
  ⟨c5_amended_delete_policy.1 envTrigCreate trigger0 _ (by decide),
   c5_amended_delete_policy.2 envBrokerDel broker0 emptyBrokerStatus
     "deployment" (brokerDispatcherName broker0.name) (by decide)⟩

/-! ### Trace-shape lemmas (C6) -/

def traceOf : SecRes → List TrigStep
  | .halt _ _ tr _ => tr
  | .next _ tr _ => tr

def isDLQish : TrigStep → Bool
  | .stepDLQ _ => true
  | .stepDLQBinding _ => true
  | _ => false

def isDispatcherStep : TrigStep → Bool
  | .stepDispatcher _ => true
  | _ => false

def isQBStep : TrigStep → Bool
  | .stepQueue _ => true
  | .stepBinding _ => true
  | _ => false

def isSubStep : TrigStep → Bool
  | .stepResolveSub _ => true
  | .stepDispatcher _ => true
  | _ => false

def isDLSStep : TrigStep → Bool
  | .stepDLX _ => true
  | .stepDLQ _ => true
  | .stepDLQBinding _ => true
  | .stepResolveDLS _ => true
  | .stepDLXDispatcher _ => true
  | _ => false

theorem dlsSection_trace_kind (env : TriggerEnv) (b : Broker) (t : Trigger)
    (st : TriggerStatus) :
    (traceOf (dlsSection env b t st)).all isDLSStep = true := by
  generalize hres : dlsSection env b t st = res
  unfold dlsSection at hres
  split at hres
  all_goals try split at hres
  all_goals try split at hres
  all_goals try split at hres
  all_goals try split at hres
  all_goals try split at hres
  all_goals try split at hres
  all_goals try split at hres
  all_goals try split at hres
  all_goals try split at hres
  all_goals subst hres
  all_goals simp [traceOf, isDLSStep]

theorem queueBindingSection_trace_kind (env : TriggerEnv) (b : Broker)
    (t : Trigger) (st : TriggerStatus) :
    (traceOf (queueBindingSection env b t st)).all isQBStep = true := by
  generalize hres : queueBindingSection env b t st = res
  unfold queueBindingSection at hres
  split at hres
  all_goals try split at hres
  all_goals try split at hres
  all_goals try split at hres
  all_goals try split at hres
  all_goals subst hres
  all_goals simp [traceOf, isQBStep]

theorem subscriberSection_trace_kind (env : TriggerEnv) (b : Broker)
    (t : Trigger) (st : TriggerStatus) :
    (traceOf (subscriberSection env b t st)).all isSubStep = true := by
  unfold subscriberSection
  cases hr : env.subResolve with
  | error e => simp [traceOf, isSubStep]
  | ok uri =>
    rcases hd : triggerReconcileDispatcherDeployment env t uri
        (match t.spec.delivery with
         | some d => some d
         | none => b.spec.delivery) with ⟨dRes, ws⟩
    simp only [hd]
    cases dRes <;> simp [traceOf, isSubStep]

theorem mem_tail_of_not_dlx {s : TrigStep} (hq : isDLQish s = true)
    (r : Except String Exchange) {l : List TrigStep}
    (h : s ∈ TrigStep.stepDLX r :: l) : s ∈ l := by
  rcases List.mem_cons.mp h with h | h
  · subst h; simp [isDLQish] at hq
  · exact h

/-- Inside the dead-letter section, every dead-letter Queue or Binding
step sits strictly after a DLX exchange step that returned a ready
exchange. -/
theorem dlsSection_dlq_shape (env : TriggerEnv) (b : Broker) (t : Trigger)
    (st : TriggerStatus) (s : TrigStep) (hq : isDLQish s = true) :
    s ∈ traceOf (dlsSection env b t st) →
    ∃ ex rest, traceOf (dlsSection env b t st) =
        TrigStep.stepDLX (Except.ok ex) :: rest ∧
      isReady ex.conditions = true ∧ s ∈ rest := by
  intro hs
  unfold dlsSection at hs ⊢
  cases hdel : t.spec.delivery with
  | none => simp [hdel, traceOf] at hs
  | some delivery =>
    simp only [hdel] at hs ⊢
    cases hdls : delivery.deadLetterSink with
    | none => simp [hdls, traceOf] at hs
    | some dest =>
      simp only [hdls] at hs ⊢
      rcases hx : triggerReconcileExchange env.dlxStore b t with ⟨dlxRes, ws1⟩
      simp only [hx] at hs ⊢
      cases dlxRes with
      | error e =>
        simp only [traceOf, List.mem_singleton] at hs
        subst hs
        simp [isDLQish] at hq
      | ok dlx =>
        by_cases hrdy : isReady dlx.conditions = true
        · simp only [hrdy, Bool.not_true, Bool.false_eq_true, if_false]
            at hs ⊢
          rcases h2 : triggerReconcileDLQ env.dlqStore b t with ⟨dlqRes, ws2⟩
          simp only [h2] at hs ⊢
          cases dlqRes with
          | error e =>
            simp only [traceOf] at hs ⊢
            exact ⟨dlx, _, rfl, hrdy, mem_tail_of_not_dlx hq _ hs⟩
          | ok dlq =>
            by_cases hrdy2 : isReady dlq.conditions = true
            · simp only [hrdy2, Bool.not_true, Bool.false_eq_true, if_false]
                at hs ⊢
              rcases h3 : triggerReconcileDLQBinding env.dlqBindingStore b t
                with ⟨qbRes, ws3⟩
              simp only [h3] at hs ⊢
              cases qbRes with
              | error e =>
                simp only [traceOf] at hs ⊢
                exact ⟨dlx, _, rfl, hrdy, mem_tail_of_not_dlx hq _ hs⟩
              | ok dlqb =>
                by_cases hrdy3 : isReady dlqb.conditions = true
                · simp only [hrdy3, Bool.not_true, Bool.false_eq_true,
                    if_false] at hs ⊢
                  cases hr : env.dlsResolve with
                  | error e =>
                    simp only [hr, traceOf] at hs ⊢
                    exact ⟨dlx, _, rfl, hrdy, mem_tail_of_not_dlx hq _ hs⟩
                  | ok uri =>
                    simp only [hr] at hs ⊢
                    rcases h4 : triggerReconcileDLXDispatcherDeployment env t
                        uri with ⟨dRes, ws4⟩
                    simp only [h4] at hs ⊢
                    cases dRes with
                    | error e =>
                      simp only [traceOf] at hs ⊢
                      exact ⟨dlx, _, rfl, hrdy, mem_tail_of_not_dlx hq _ hs⟩
                    | ok dd =>
                      simp only [traceOf] at hs ⊢
                      exact ⟨dlx, _, rfl, hrdy, mem_tail_of_not_dlx hq _ hs⟩
                · have hf : isReady dlqb.conditions = false := by
                    revert hrdy3; cases isReady dlqb.conditions <;> simp
                  simp only [hf, Bool.not_false, if_true, traceOf] at hs ⊢
                  exact ⟨dlx, _, rfl, hrdy, mem_tail_of_not_dlx hq _ hs⟩
            · have hf : isReady dlq.conditions = false := by
                revert hrdy2; cases isReady dlq.conditions <;> simp
              simp only [hf, Bool.not_false, if_true, traceOf] at hs ⊢
              exact ⟨dlx, _, rfl, hrdy, mem_tail_of_not_dlx hq _ hs⟩
        · have hf : isReady dlx.conditions = false := by
            revert hrdy; cases isReady dlx.conditions <;> simp
          simp only [hf, Bool.not_false, if_true, traceOf,
            List.mem_singleton] at hs
          subst hs
          simp [isDLQish] at hq

/-- Inside the subscriber section, the dispatcher step sits strictly after
a successful subscriber resolution step. -/
theorem subscriberSection_dispatcher_shape (env : TriggerEnv) (b : Broker)
    (t : Trigger) (st : TriggerStatus) (s : TrigStep)
    (hd : isDispatcherStep s = true) :
    s ∈ traceOf (subscriberSection env b t st) →
    ∃ uri rest, traceOf (subscriberSection env b t st) =
        TrigStep.stepResolveSub (Except.ok uri) :: rest ∧
      env.subResolve = Except.ok uri ∧ s ∈ rest := by
  intro hs
  unfold subscriberSection at hs ⊢
  cases hr : env.subResolve with
  | error e =>
    simp only [hr, traceOf, List.mem_singleton] at hs
    subst hs
    simp [isDispatcherStep] at hd
  | ok uri =>
    simp only [hr] at hs ⊢
    rcases hdd : triggerReconcileDispatcherDeployment env t uri
        (match t.spec.delivery with
         | some d => some d
         | none => b.spec.delivery) with ⟨dRes, ws⟩
    simp only [hdd] at hs ⊢
    cases dRes with
    | error e =>
      simp only [traceOf] at hs ⊢
      refine ⟨uri, _, rfl, rfl, ?_⟩
      rcases List.mem_cons.mp hs with h | h
      · subst h; simp [isDispatcherStep] at hd
      · exact h
    | ok dd =>
      simp only [traceOf] at hs ⊢
      refine ⟨uri, _, rfl, rfl, ?_⟩
      rcases List.mem_cons.mp hs with h | h
      · subst h; simp [isDispatcherStep] at hd
      · exact h

/-- The run trace is either empty (a gate soft/hard stop) or the
concatenation of the section traces, cut at the first halting section. -/
theorem triggerReconcileKind_trace_decomp (env : TriggerEnv) (t : Trigger) :
    (triggerReconcileKind env t).trace = [] ∨
    ∃ broker st3,
      env.brokerLookup = Lookup.found broker ∧
      ((triggerReconcileKind env t).trace =
          traceOf (dlsSection env broker t st3) ∨
       ∃ st4 tr4 ws4,
         dlsSection env broker t st3 = SecRes.next st4 tr4 ws4 ∧
         ((triggerReconcileKind env t).trace =
             tr4 ++ traceOf (queueBindingSection env broker t st4) ∨
          ∃ st5 tr5 ws5,
            queueBindingSection env broker t st4 = SecRes.next st5 tr5 ws5 ∧
            (triggerReconcileKind env t).trace =
              tr4 ++ tr5 ++ traceOf (subscriberSection env broker t st5))) := by
  unfold triggerReconcileKind
  cases hb : env.brokerLookup with
  | notFound => simp
  | failed e => simp
  | found broker =>
    simp only
    by_cases hclass :
        lookupArgD broker.annots brokerClassKey = env.brokerClass
    · rw [if_neg (by simpa using hclass)]
      by_cases hready : brokerIsReady broker = true
      · simp only [hready, Bool.not_true, Bool.false_eq_true, if_false]
        rcases hdep : checkDependencyAnnotation env.dep t
            (propagateBrokerCondition
              { initializeConditions t.status with
                observedGeneration := some t.generation } broker.topLevel)
          with ⟨st3, eo⟩
        cases eo with
        | some e => simp
        | none =>
          dsimp only
          by_cases hds : getDependencyStatus st3 = CStatus.isTrue
          · rw [if_neg (by simpa using hds)]
            by_cases hop : isUsingOperator (some broker) = true
            · simp only [hop, Bool.not_true, Bool.false_eq_true, if_false]
              rcases hd4 : dlsSection env broker t st3 with
                ⟨st4, e4, tr4, ws4⟩ | ⟨st4, tr4, ws4⟩
              · refine Or.inr ⟨broker, st3, rfl, Or.inl ?_⟩
                rw [hd4]
                rfl
              · rcases hq5 : queueBindingSection env broker t st4 with
                  ⟨st5, e5, tr5, ws5⟩ | ⟨st5, tr5, ws5⟩
                · refine Or.inr ⟨broker, st3, rfl,
                    Or.inr ⟨st4, tr4, ws4, hd4, Or.inl ?_⟩⟩
                  dsimp only
                  rw [hq5]
                  rfl
                · rcases hs6 : subscriberSection env broker t st5 with
                    ⟨st6, e6, tr6, ws6⟩ | ⟨st6, tr6, ws6⟩
                  · refine Or.inr ⟨broker, st3, rfl,
                      Or.inr ⟨st4, tr4, ws4, hd4,
                        Or.inr ⟨st5, tr5, ws5, hq5, ?_⟩⟩⟩
                    dsimp only
                    rw [hq5]
                    dsimp only
                    rw [hs6]
                    rfl
                  · refine Or.inr ⟨broker, st3, rfl,
                      Or.inr ⟨st4, tr4, ws4, hd4,
                        Or.inr ⟨st5, tr5, ws5, hq5, ?_⟩⟩⟩
                    dsimp only
                    rw [hq5]
                    dsimp only
                    rw [hs6]
                    rfl
            · have hf : isUsingOperator (some broker) = false := by
                revert hop; cases isUsingOperator (some broker) <;> simp
              simp only [hf, Bool.not_false, if_true]
              simp
          · rw [if_pos (by simpa using hds)]
            simp
      · have hf : brokerIsReady broker = false := by
          revert hready; cases brokerIsReady broker <;> simp
        simp only [hf, Bool.not_false, if_true]
        simp
    · rw [if_pos (by simpa using hclass)]
      simp

/-! ### C6 -/

/-- C6: in every Trigger ReconcileKind run, a dead-letter Queue or
dead-letter Binding step appears in the trace only strictly after the DLX
exchange step returned a ready exchange, and the primary dispatcher step
appears only strictly after the subscriber address resolved
successfully. -/
theorem c6_pipeline_ordering (env : TriggerEnv) (t : Trigger) :
    (∀ s, isDLQish s = true → s ∈ (triggerReconcileKind env t).trace →
       ∃ ex rest, (triggerReconcileKind env t).trace =
           TrigStep.stepDLX (Except.ok ex) :: rest ∧
         isReady ex.conditions = true ∧ s ∈ rest) ∧
    (∀ s, isDispatcherStep s = true → s ∈ (triggerReconcileKind env t).trace →
       ∃ uri pre rest, (triggerReconcileKind env t).trace =
           pre ++ (TrigStep.stepResolveSub (Except.ok uri) :: rest) ∧
         env.subResolve = Except.ok uri ∧ s ∈ rest) := by
  rcases triggerReconcileKind_trace_decomp env t with
    hnil | ⟨broker, st3, hb, hcase⟩
  · constructor
    · intro s _ hs
      rw [hnil] at hs
      simp at hs
    · intro s _ hs
      rw [hnil] at hs
      simp at hs
  · rcases hcase with htr | ⟨st4, tr4, ws4, hd4, hcase2⟩
    · constructor
      · intro s hq hs
        rw [htr] at hs ⊢
        exact dlsSection_dlq_shape env broker t st3 s hq hs
      · intro s hd hs
        rw [htr] at hs
        have hk := List.all_eq_true.mp (dlsSection_trace_kind env broker t st3)
          s hs
        exfalso
        cases s <;> simp_all [isDLSStep, isDispatcherStep]
    · have htr4 : traceOf (dlsSection env broker t st3) = tr4 := by
        rw [hd4]
        rfl
      rcases hcase2 with htr | ⟨st5, tr5, ws5, hq5, htr⟩
      · constructor
        · intro s hq hs
          rw [htr] at hs ⊢
          rcases List.mem_append.mp hs with h | h
          · have hmem4 : s ∈ traceOf (dlsSection env broker t st3) := by
              rw [htr4]; exact h
            obtain ⟨ex, rest, he, hready, hmem⟩ :=
              dlsSection_dlq_shape env broker t st3 s hq hmem4
            rw [htr4] at he
            refine ⟨ex,
              rest ++ traceOf (queueBindingSection env broker t st4), ?_,
              hready, List.mem_append_left _ hmem⟩
            rw [he, List.cons_append]
          · exfalso
            have hk := List.all_eq_true.mp
              (queueBindingSection_trace_kind env broker t st4) s h
            cases s <;> simp_all [isQBStep, isDLQish]
        · intro s hd hs
          rw [htr] at hs
          exfalso
          rcases List.mem_append.mp hs with h | h
          · have hmem4 : s ∈ traceOf (dlsSection env broker t st3) := by
              rw [htr4]; exact h
            have hk := List.all_eq_true.mp
              (dlsSection_trace_kind env broker t st3) s hmem4
            cases s <;> simp_all [isDLSStep, isDispatcherStep]
          · have hk := List.all_eq_true.mp
              (queueBindingSection_trace_kind env broker t st4) s h
            cases s <;> simp_all [isQBStep, isDispatcherStep]
      · have htr5 : traceOf (queueBindingSection env broker t st4) = tr5 := by
          rw [hq5]
          rfl
        constructor
        · intro s hq hs
          rw [htr] at hs ⊢
          rcases List.mem_append.mp hs with h | h
          · rcases List.mem_append.mp h with h1 | h2
            · have hmem4 : s ∈ traceOf (dlsSection env broker t st3) := by
                rw [htr4]; exact h1
              obtain ⟨ex, rest, he, hready, hmem⟩ :=
                dlsSection_dlq_shape env broker t st3 s hq hmem4
              rw [htr4] at he
              refine ⟨ex,
                (rest ++ tr5) ++ traceOf (subscriberSection env broker t st5),
                ?_, hready,
                List.mem_append_left _ (List.mem_append_left _ hmem)⟩
              rw [he]
              simp [List.cons_append]
            · exfalso
              have hmem5 : s ∈ traceOf (queueBindingSection env broker t st4) := by
                rw [htr5]; exact h2
              have hk := List.all_eq_true.mp
                (queueBindingSection_trace_kind env broker t st4) s hmem5
              cases s <;> simp_all [isQBStep, isDLQish]
          · exfalso
            have hk := List.all_eq_true.mp
              (subscriberSection_trace_kind env broker t st5) s h
            cases s <;> simp_all [isSubStep, isDLQish]
        · intro s hd hs
          rw [htr] at hs ⊢
          rcases List.mem_append.mp hs with h | h
          · exfalso
            rcases List.mem_append.mp h with h1 | h2
            · have hmem4 : s ∈ traceOf (dlsSection env broker t st3) := by
                rw [htr4]; exact h1
              have hk := List.all_eq_true.mp
                (dlsSection_trace_kind env broker t st3) s hmem4
              cases s <;> simp_all [isDLSStep, isDispatcherStep]
            · have hmem5 : s ∈ traceOf (queueBindingSection env broker t st4) := by
                rw [htr5]; exact h2
              have hk := List.all_eq_true.mp
                (queueBindingSection_trace_kind env broker t st4) s hmem5
              cases s <;> simp_all [isQBStep, isDispatcherStep]
          · obtain ⟨uri, rest, he, hr, hmem⟩ :=
              subscriberSection_dispatcher_shape env broker t st5 s hd h
            refine ⟨uri, tr4 ++ tr5, rest, ?_, hr, hmem⟩
            rw [he]

/-- Environment in which every Trigger pipeline step succeeds. -/
def envHappy : TriggerEnv :=
  { brokerClass := "RabbitMQBroker", dispatcherImage := "dispatcher-image"
    brokerLookup := Lookup.found broker0
    dep := DepAnnVal.tracked (DepFetch.fetched ⟨0, 0, some ⟨CStatus.isTrue, ""⟩⟩)
    dlxStore := ⟨Lookup.found (withReadyE (newExchange
      { broker := broker0, trigger := some triggerD, dlx := true })), none⟩
    dlqStore := ⟨Lookup.found (withReadyQ (newTriggerDLQ broker0 triggerD)),
      none⟩
    dlqBindingStore := ⟨Lookup.found
      (withReadyB (newTriggerDLQBinding broker0 triggerD)), none⟩
    dlsResolve := Except.ok "http://dls.example"
    secretFetch := Except.ok (makeSecret broker0)
    dlqDispStore := ⟨Lookup.notFound, none⟩
    queueStore := ⟨Lookup.found (withReadyQ (newQueue broker0 (some triggerD))),
      none⟩
    bindingStore := ⟨Lookup.found
      (withReadyB (newBinding broker0 (some triggerD))), none⟩
    subResolve := Except.ok "http://sub.example"
    dispStore := ⟨Lookup.notFound, none⟩ }

def happyDispatcher : Deployment :=
  makeDispatcherDeployment
    { dname := triggerDispatcherName triggerD, ns := triggerD.ns
      image := "dispatcher-image"
      rabbitMQSecretName := (makeSecret broker0).name
      queueName := createTriggerQueueName triggerD
      brokerIngressURL := broker0.address
      subscriber := some "http://sub.example", dlx := false }

theorem c6_pipeline_ordering_witness :
    (∃ ex rest, (triggerReconcileKind envHappy triggerD).trace =
        TrigStep.stepDLX (Except.ok ex) :: rest ∧
      isReady ex.conditions = true ∧
      TrigStep.stepDLQ
        (Except.ok (withReadyQ (newTriggerDLQ broker0 triggerD))) ∈ rest) ∧
    (∃ uri pre rest, (triggerReconcileKind envHappy triggerD).trace =
        pre ++ (TrigStep.stepResolveSub (Except.ok uri) :: rest) ∧
      envHappy.subResolve = Except.ok uri ∧
      TrigStep.stepDispatcher (Except.ok happyDispatcher) ∈ rest) :=
  ⟨(c6_pipeline_ordering envHappy triggerD).1 _ (by decide) (by decide),
   (c6_pipeline_ordering envHappy triggerD).2 _ (by decide) (by decide)⟩
